import Mathlib

/-!
# Verification of the `lsc_dr_planner` geometry kernel and agent manager

This file is a shallow embedding, in Lean 4, of the parts of the
`lsc_dr_planner` repository that the verified properties concern:

* the geometry kernel of `src/include/geometry.hpp`
  (`closestPointsBetweenPointAndLine`, `closestPointsBetweenPointAndRay`,
  `closestPointsBetweenPointAndLineSegment`, `closestPointsBetweenLinePaths`,
  `closestPointsBetweenLines`, `closestPointsBetweenLineSegments`,
  `computeCollisionTime`);
* the `AgentManager` methods of `src/agent_manager.cpp`
  (`doStep`, `plan`, `setPlannerState`, `planningStateTransition`).

IEEE-754 `double`/`float` arithmetic is idealized as exact real arithmetic
(`ℝ`); all numeric definitions follow the C++ source expression by
expression.  `octomap::point3d` is embedded as a record of three reals; its
default constructor zero-initializes the coordinates, which the embedding
reproduces where the C++ code reads a default-constructed vector.
-/

open Classical

noncomputable section

/-- Embedding of `octomap::point3d` / `octomath::Vector3`: a 3-vector of
(idealized) reals. -/
structure Vec3 where
  x : ℝ
  y : ℝ
  z : ℝ

namespace Vec3

instance : Zero Vec3 := ⟨⟨0, 0, 0⟩⟩

instance : Add Vec3 := ⟨fun a b => ⟨a.x + b.x, a.y + b.y, a.z + b.z⟩⟩

instance : Sub Vec3 := ⟨fun a b => ⟨a.x - b.x, a.y - b.y, a.z - b.z⟩⟩

instance : Neg Vec3 := ⟨fun a => ⟨-a.x, -a.y, -a.z⟩⟩

instance : SMul ℝ Vec3 := ⟨fun k v => ⟨k * v.x, k * v.y, k * v.z⟩⟩

@[simp] theorem zero_x : (0 : Vec3).x = 0 := rfl

@[simp] theorem zero_y : (0 : Vec3).y = 0 := rfl

@[simp] theorem zero_z : (0 : Vec3).z = 0 := rfl

@[simp] theorem add_x (a b : Vec3) : (a + b).x = a.x + b.x := rfl

@[simp] theorem add_y (a b : Vec3) : (a + b).y = a.y + b.y := rfl

@[simp] theorem add_z (a b : Vec3) : (a + b).z = a.z + b.z := rfl

@[simp] theorem sub_x (a b : Vec3) : (a - b).x = a.x - b.x := rfl

@[simp] theorem sub_y (a b : Vec3) : (a - b).y = a.y - b.y := rfl

@[simp] theorem sub_z (a b : Vec3) : (a - b).z = a.z - b.z := rfl

@[simp] theorem neg_x (a : Vec3) : (-a).x = -a.x := rfl

@[simp] theorem neg_y (a : Vec3) : (-a).y = -a.y := rfl

@[simp] theorem neg_z (a : Vec3) : (-a).z = -a.z := rfl

@[simp] theorem smul_x (k : ℝ) (a : Vec3) : (k • a).x = k * a.x := rfl

@[simp] theorem smul_y (k : ℝ) (a : Vec3) : (k • a).y = k * a.y := rfl

@[simp] theorem smul_z (k : ℝ) (a : Vec3) : (k • a).z = k * a.z := rfl

theorem ext_iff {a b : Vec3} : a = b ↔ a.x = b.x ∧ a.y = b.y ∧ a.z = b.z := by
  cases a; cases b; simp [Vec3.mk.injEq]

/-- `point3d::dot`. -/
def dot (a b : Vec3) : ℝ := a.x * b.x + a.y * b.y + a.z * b.z

/-- `point3d::cross`. -/
def cross (a b : Vec3) : Vec3 :=
  ⟨a.y * b.z - a.z * b.y, a.z * b.x - a.x * b.z, a.x * b.y - a.y * b.x⟩

/-- Squared Euclidean norm (helper; the C++ code writes `v.dot(v)` or
`v.norm() * v.norm()`). -/
def normSq (a : Vec3) : ℝ := a.x ^ 2 + a.y ^ 2 + a.z ^ 2

/-- `point3d::norm`. -/
def norm (a : Vec3) : ℝ := Real.sqrt a.normSq

/-- `point3d::distance`. -/
def distance (a b : Vec3) : ℝ := norm (a - b)

/-- `point3d::normalized` (octomath guards the division by a zero norm). -/
def normalized (a : Vec3) : Vec3 := if 0 < norm a then (1 / norm a) • a else a

theorem normSq_nonneg (a : Vec3) : 0 ≤ a.normSq := by
  simp only [normSq]; positivity

theorem norm_nonneg (a : Vec3) : 0 ≤ a.norm := Real.sqrt_nonneg _

theorem sq_norm (a : Vec3) : a.norm ^ 2 = a.normSq :=
  Real.sq_sqrt a.normSq_nonneg

theorem norm_eq_iff {a : Vec3} {r : ℝ} (hr : 0 ≤ r) :
    a.norm = r ↔ a.normSq = r ^ 2 := by
  constructor
  · intro h; rw [← sq_norm, h]
  · intro h; rw [norm, h, Real.sqrt_sq hr]

theorem normSq_eq_zero_iff {a : Vec3} : a.normSq = 0 ↔ a = 0 := by
  simp only [normSq, ext_iff, zero_x, zero_y, zero_z]
  constructor
  · intro h
    refine ⟨?_, ?_, ?_⟩ <;> nlinarith [sq_nonneg a.x, sq_nonneg a.y, sq_nonneg a.z]
  · rintro ⟨hx, hy, hz⟩; rw [hx, hy, hz]; ring

theorem norm_eq_zero_iff {a : Vec3} : a.norm = 0 ↔ a = 0 := by
  rw [norm, Real.sqrt_eq_zero a.normSq_nonneg, normSq_eq_zero_iff]

theorem norm_pos_iff {a : Vec3} : 0 < a.norm ↔ a ≠ 0 := by
  rw [norm, Real.sqrt_pos]
  constructor
  · intro h he; rw [he] at h; simp [normSq] at h
  · intro h
    rcases lt_or_eq_of_le a.normSq_nonneg with hlt | heq
    · exact hlt
    · exact absurd (normSq_eq_zero_iff.mp heq.symm) h

theorem norm_le_norm_iff {a b : Vec3} : a.norm ≤ b.norm ↔ a.normSq ≤ b.normSq := by
  rw [norm, norm]
  constructor
  · intro h
    have := Real.sqrt_le_sqrt (le_of_eq (rfl : a.normSq = a.normSq))
    nlinarith [Real.sq_sqrt a.normSq_nonneg, Real.sq_sqrt b.normSq_nonneg,
      Real.sqrt_nonneg a.normSq, Real.sqrt_nonneg b.normSq, h]
  · exact fun h => Real.sqrt_le_sqrt h

theorem norm_lt_norm_iff {a b : Vec3} : a.norm < b.norm ↔ a.normSq < b.normSq := by
  constructor
  · intro h
    by_contra hc
    exact absurd (norm_le_norm_iff.mpr (not_lt.mp hc)) (not_le.mpr h)
  · intro h
    by_contra hc
    exact absurd (norm_le_norm_iff.mp (not_lt.mp hc)) (not_le.mpr h)

end Vec3

/-- Embedding of the `ClosestPoints` result record used throughout the
geometry kernel: `{closest_point1, closest_point2, dist}`. -/
structure ClosestPoints where
  closest_point1 : Vec3
  closest_point2 : Vec3
  dist : ℝ

/-- `DynamicPlanning::Line`: a line segment given by start and end points. -/
structure Line where
  start_point : Vec3
  end_point : Vec3

namespace Line

/-- `Line::length`. -/
def length (l : Line) : ℝ := l.start_point.distance l.end_point

/-- `Line::operator-`. -/
def lsub (l other : Line) : Line :=
  ⟨l.start_point - other.start_point, l.end_point - other.end_point⟩

end Line

/-- Modelled from the spec: the constant `SP_EPSILON_FLOAT` of
`sp_const.hpp`, which is not part of the provided sources; §4.1 of the spec
gives the epsilon guard as ≈1e-5 on the unit sphere. -/
def SP_EPSILON_FLOAT : ℝ := 1 / 100000

/-- Modelled from the spec: the sentinel `SP_INFINITY` of `sp_const.hpp`
(not part of the provided sources), used by the code as the "+∞" return
value; any fixed large real serves as the sentinel. -/
def SP_INFINITY : ℝ := 10 ^ 8

theorem SP_EPSILON_FLOAT_pos : 0 < SP_EPSILON_FLOAT := by norm_num [SP_EPSILON_FLOAT]

theorem SP_EPSILON_FLOAT_le_one : SP_EPSILON_FLOAT ≤ 1 := by norm_num [SP_EPSILON_FLOAT]

/-- Swap of the two witness fields (`std::swap(closest_point1, closest_point2)`). -/
def swapCP (cp : ClosestPoints) : ClosestPoints :=
  ⟨cp.closest_point2, cp.closest_point1, cp.dist⟩

/-- `geometry.hpp:31` `closestPointsBetweenPointAndLine`. -/
def closestPointsBetweenPointAndLine (point line_point line_direction : Vec3) :
    ClosestPoints :=
  let a := line_point - point
  let c := a - (a.dot line_direction) • line_direction
  let line_closest_point := point + c
  ⟨point, line_closest_point, c.norm⟩

/-- `geometry.hpp:47` `closestPointsBetweenPointAndRay`.  In the C++ source
`ray_closest_point` is a default-constructed `point3d` that is never
assigned before being stored in the first branch; `octomath::Vector3`'s
default constructor zero-initializes, so the branch stores the origin. -/
def closestPointsBetweenPointAndRay (point ray_start ray_direction : Vec3) :
    ClosestPoints :=
  let ray_closest_point : Vec3 := 0
  let delta_to_start := point - ray_start
  if delta_to_start.dot ray_direction < 0 then
    ⟨point, ray_closest_point, delta_to_start.norm⟩
  else
    closestPointsBetweenPointAndLine point ray_start ray_direction

/-- `geometry.hpp:67` `closestPointsBetweenPointAndLineSegment`.  The C++
body mutates `(dist_min, rel_closest_point)` through a sequence of
candidate checks; the embedding threads those updates explicitly. -/
def closestPointsBetweenPointAndLineSegment (point : Vec3) (line : Line) :
    ClosestPoints :=
  let a := line.start_point - point
  let b := line.end_point - point
  if a = b then
    ⟨point, a + point, a.norm⟩
  else
    let dm0 := a.norm
    let r0 := a
    let dm1 := if dm0 > b.norm then b.norm else dm0
    let r1 := if dm0 > b.norm then b else r0
    let n_line := (b - a).normalized
    let c := a - (a.dot n_line) • n_line
    let dm2 := if (c - a).dot (c - b) < 0 ∧ dm1 > c.norm then c.norm else dm1
    let r2 := if (c - a).dot (c - b) < 0 ∧ dm1 > c.norm then c else r1
    ⟨point, r2 + point, dm2⟩

/-- `geometry.hpp:105` `closestPointsBetweenLinePaths`. -/
def closestPointsBetweenLinePaths (line1 line2 : Line) : ClosestPoints :=
  let rel_path := line2.lsub line1
  let origin : Vec3 := 0
  let rel_closest_points := closestPointsBetweenPointAndLineSegment origin rel_path
  let line_length := rel_path.length
  let alpha :=
    if line_length > 0 then
      (rel_closest_points.closest_point2 - rel_path.start_point).norm / line_length
    else 0
  ⟨line1.start_point + alpha • (line1.end_point - line1.start_point),
   line2.start_point + alpha • (line2.end_point - line2.start_point),
   rel_closest_points.dist⟩

/-- Determinant of the 3×3 matrix with the given columns (helper for the
`Eigen` solve in `closestPointsBetweenLines`). -/
def det3 (c1 c2 c3 : Vec3) : ℝ :=
  c1.x * (c2.y * c3.z - c2.z * c3.y)
    - c2.x * (c1.y * c3.z - c1.z * c3.y)
    + c3.x * (c1.y * c2.z - c1.z * c2.y)

/-- `A.inverse() * b` for the 3×3 matrix `A` with columns `c1 c2 c3`,
written out by Cramer's rule (what Eigen's closed-form 3×3 inverse computes
in exact arithmetic). -/
def solve3 (c1 c2 c3 b : Vec3) : ℝ × ℝ × ℝ :=
  (det3 b c2 c3 / det3 c1 c2 c3,
   det3 c1 b c3 / det3 c1 c2 c3,
   det3 c1 c2 b / det3 c1 c2 c3)

/-- `geometry.hpp:129` `closestPointsBetweenLines`.  The C++ function throws
`std::invalid_argument` on a degenerate input line; the embedding returns a
zero record in that case (the verified call sites exclude it). -/
def closestPointsBetweenLines (line1 line2 : Line) : ClosestPoints :=
  if line1.start_point = line1.end_point ∨ line2.start_point = line2.end_point then
    ⟨0, 0, 0⟩
  else
    let n1 := (line1.end_point - line1.start_point).normalized
    let n2 := (line2.end_point - line2.start_point).normalized
    if n1.distance n2 < SP_EPSILON_FLOAT ∨ n1.distance (-n2) < SP_EPSILON_FLOAT then
      let delta0 := line2.start_point - line1.start_point
      let delta := delta0 - (delta0.dot n1) • n1
      ⟨line1.start_point, line1.start_point + delta, delta.norm⟩
    else
      let delta := line2.start_point - line1.start_point
      let n3 := (n2.cross n1).normalized
      let alphas := solve3 n1 (-n2) n3 delta
      ⟨line1.start_point + alphas.1 • n1,
       line2.start_point + alphas.2.1 • n2,
       |alphas.2.2|⟩

/-- The parallel branch of `closestPointsBetweenLineSegments`
(`geometry.hpp:192-218`), taken when `‖n1 × n2‖ < SP_EPSILON_FLOAT`. -/
def closestPointsBetweenParallelLineSegments (line1 line2 : Line) (n1 : Vec3)
    (l1 : ℝ) : ClosestPoints :=
  let bm0 := (line2.start_point - line1.start_point).dot n1
  let bM0 := (line2.end_point - line1.start_point).dot n1
  let bound_min := if bM0 < bm0 then bM0 else bm0
  let bound_max := if bM0 < bm0 then bm0 else bM0
  let p2_min := if bM0 < bm0 then line2.end_point else line2.start_point
  let p2_max := if bM0 < bm0 then line2.start_point else line2.end_point
  let delta0 := line2.start_point - line1.start_point
  let delta := delta0 - (delta0.dot n1) • n1
  let cp :=
    if l1 < bound_min then (line1.end_point, p2_min)
    else if bound_max < 0 then (line1.start_point, p2_max)
    else if bound_min < 0 then (line1.start_point, line1.start_point + delta)
    else (p2_min - delta, p2_min)
  ⟨cp.1, cp.2, cp.1.distance cp.2⟩

/-- `geometry.hpp:174` `closestPointsBetweenLineSegments`. -/
def closestPointsBetweenLineSegments (line1 line2 : Line) : ClosestPoints :=
  if line1.start_point.distance line1.end_point < SP_EPSILON_FLOAT then
    closestPointsBetweenPointAndLineSegment line1.start_point line2
  else if line2.start_point.distance line2.end_point < SP_EPSILON_FLOAT then
    swapCP (closestPointsBetweenPointAndLineSegment line2.start_point line1)
  else
    let v1 := line1.end_point - line1.start_point
    let v2 := line2.end_point - line2.start_point
    let l1 := v1.norm
    let l2 := v2.norm
    let n1 := (1 / l1) • v1
    let n2 := (1 / l2) • v2
    if (n1.cross n2).norm < SP_EPSILON_FLOAT then
      closestPointsBetweenParallelLineSegments line1 line2 n1 l1
    else
      let cp0 := closestPointsBetweenLines line1 line2
      let alpha1 := (cp0.closest_point1 - line1.start_point).dot n1 / l1
      let alpha2 := (cp0.closest_point2 - line2.start_point).dot n2 / l2
      let p1a :=
        if alpha1 < 0 then line1.start_point
        else if alpha1 > 1 then line1.end_point
        else cp0.closest_point1
      let p2a :=
        if alpha2 < 0 then line2.start_point
        else if alpha2 > 1 then line2.end_point
        else cp0.closest_point2
      let p2b :=
        if alpha1 < 0 ∨ alpha1 > 1 then
          let dot0 := n2.dot (p1a - line2.start_point)
          let dot1 := if dot0 < 0 then 0 else if dot0 > l2 then l2 else dot0
          line2.start_point + dot1 • n2
        else p2a
      let p1b :=
        if alpha2 < 0 ∨ alpha2 > 1 then
          let dot0 := n1.dot (p2b - line1.start_point)
          let dot1 := if dot0 < 0 then 0 else if dot0 > l1 then l1 else dot0
          line1.start_point + dot1 • n1
        else p1a
      ⟨p1b, p2b, p1b.distance p2b⟩

/-- `geometry.hpp:612` `computeCollisionTime`.  `sqrt` of a negative
argument (NaN in C++) is idealized by `Real.sqrt`, which the verified
statements only invoke on provably nonnegative arguments. -/
def computeCollisionTime (obs_path agent_path : Line)
    (collision_radius time_horizon : ℝ) : ℝ :=
  let closest_points := closestPointsBetweenLinePaths obs_path agent_path
  if closest_points.dist ≤ collision_radius then
    let a := agent_path.start_point - obs_path.start_point
    let b := agent_path.end_point - obs_path.end_point
    let delta := closest_points.closest_point2 - closest_points.closest_point1
    if a.norm ≤ collision_radius then 0
    else if delta = b then
      let n_line := (b - a).normalized
      let c := a - (a.dot n_line) • n_line
      let dist_to_b := b.norm
      let dist_to_c := c.norm
      let dist_in_sphere1 :=
        Real.sqrt (collision_radius * collision_radius - dist_to_c * dist_to_c)
      let dist_in_sphere2 := Real.sqrt (dist_to_b * dist_to_b - dist_to_c * dist_to_c)
      (1 - (dist_in_sphere1 - dist_in_sphere2) / (b - a).norm) * time_horizon
    else
      let dist_to_b := b.norm
      let dist_in_sphere1 :=
        Real.sqrt (collision_radius * collision_radius
          - closest_points.dist * closest_points.dist)
      let dist_in_sphere2 :=
        Real.sqrt (dist_to_b * dist_to_b - closest_points.dist * closest_points.dist)
      (1 - (dist_in_sphere1 + dist_in_sphere2) / (b - a).norm) * time_horizon
  else SP_INFINITY

/-- Planner state machine states (`sp_const.hpp` enum, used by
`agent_manager.cpp`). -/
inductive PlannerState where
  | WAIT
  | GOTO
  | PATROL
  | GOBACK
  | LAND
  deriving DecidableEq

/-- Result enum of `AgentManager::plan`. -/
inductive PlanningReport where
  | WAITFORROSMSG
  | SUCCESS
  | INITTRAJGENERATIONFAIL
  | CONSTRAINTGENERATIONFAIL
  | QPFAIL
  deriving DecidableEq

/-- A dynamic state `{position, velocity, acceleration}`
(`dynamic_msgs::State` / `agent.current_state`). -/
structure State where
  position : Vec3
  velocity : Vec3
  acceleration : Vec3

/-- The fields of `Agent` that the verified `AgentManager` methods read or
write. -/
structure Agent where
  current_state : State
  start_point : Vec3
  desired_goal_point : Vec3
  current_goal_point : Vec3

/-- The mission entry `mission.agents[agent.id]` for this agent (only its
start and desired goal points are consulted by the verified methods). -/
structure MissionAgent where
  start_point : Vec3
  desired_goal_point : Vec3

/-- The configuration fields of `Param` consulted by the verified
`AgentManager` methods. -/
structure Param where
  multisim_experiment : Bool
  world_dimension : ℕ
  world_z_2d : ℝ
  goal_threshold : ℝ

/-- Observations provided by the command executor (`CmdPublisher`), which
exists only when `multisim_experiment` is set; the C++ code dereferences it
only under that flag. -/
structure CmdPublisher where
  is_disturbed : Bool
  observed_agent_position : Vec3
  landing_finished : Bool

/-- Outputs of the underlying trajectory planner consumed by
`AgentManager::plan` (`traj_planner->getCurrentGoalPosition()` and
`traj_planner->getCollisionAlert()`); passed in as an oracle since
`TrajPlanner` is outside the verified surface. -/
structure TrajPlannerOut where
  current_goal_position : Vec3
  collision_alert : Bool

/-- The mutable `AgentManager` state touched by the verified methods. -/
structure AgentManager where
  param : Param
  mission_agent : MissionAgent
  agent : Agent
  planner_state : PlannerState
  has_current_state : Bool
  has_obstacles : Bool
  is_disturbed : Bool
  collision_alert : Bool
  cmd : CmdPublisher

/-- `agent_manager.cpp:34` `AgentManager::doStep`.  The ideal future state
`desired_traj.getStateAt(time_step)` is supplied as an oracle argument
(the trajectory representation is outside the verified surface); the local
map update has no observable effect on the embedded state. -/
def doStep (am : AgentManager) (ideal_future_state : State) : AgentManager :=
  let am1 :=
    if am.param.multisim_experiment then
      if am.cmd.is_disturbed then
        { am with
          is_disturbed := true,
          agent.current_state :=
            ⟨am.cmd.observed_agent_position, 0, 0⟩ }
      else
        { am with is_disturbed := false, agent.current_state := ideal_future_state }
    else
      { am with agent.current_state := ideal_future_state }
  let am2 :=
    if am.param.world_dimension = 2 then
      { am1 with agent.current_state.position.z := am.param.world_z_2d }
    else am1
  { am2 with has_current_state := true }

/-- `agent_manager.cpp:293` `AgentManager::planningStateTransition`. -/
def planningStateTransition (am : AgentManager) : AgentManager :=
  if am.planner_state = PlannerState.GOTO then
    { am with agent.desired_goal_point := am.mission_agent.desired_goal_point }
  else if am.planner_state = PlannerState.PATROL ∧
      am.agent.desired_goal_point.distance am.agent.current_state.position
        < am.param.goal_threshold then
    { am with
      agent.desired_goal_point := am.agent.start_point,
      agent.start_point := am.agent.desired_goal_point }
  else if am.planner_state = PlannerState.GOBACK then
    { am with agent.desired_goal_point := am.mission_agent.start_point }
  else am

/-- `agent_manager.cpp:71` `AgentManager::plan`.  The trajectory planner's
outputs are supplied as an oracle; `landingCallback` and `updateTraj` act
only on the command executor, outside the embedded state. -/
def plan (am : AgentManager) (tp : TrajPlannerOut) :
    PlanningReport × AgentManager :=
  if am.has_obstacles = false ∨ am.has_current_state = false then
    (PlanningReport.WAITFORROSMSG, am)
  else
    let am1 :=
      if am.param.multisim_experiment ∧ am.planner_state = PlannerState.LAND then
        am
      else
        let am' := planningStateTransition am
        { am' with
          agent.current_goal_point := tp.current_goal_position,
          collision_alert := tp.collision_alert }
    (PlanningReport.SUCCESS,
     { am1 with has_obstacles := false, has_current_state := false })

/-- `agent_manager.cpp:171` `AgentManager::setPlannerState`. -/
def setPlannerState (am : AgentManager) (new_planner_state : PlannerState) :
    AgentManager :=
  if am.param.multisim_experiment ∧ am.planner_state = PlannerState.LAND ∧
      am.cmd.landing_finished = false then
    am
  else
    { am with planner_state := new_planner_state }

/-! ## Concrete example states used by witnesses and counterexamples -/

/-- A concrete agent manager state with fresh inputs, used to instantiate
hypothesis-bearing theorems. -/
def amReady : AgentManager :=
  { param := ⟨false, 3, 1, 1 / 5⟩
    mission_agent := ⟨0, ⟨5, 0, 1⟩⟩
    agent := ⟨⟨0, 0, 0⟩, 0, ⟨5, 0, 1⟩, 0⟩
    planner_state := PlannerState.WAIT
    has_current_state := true
    has_obstacles := true
    is_disturbed := false
    collision_alert := false
    cmd := ⟨false, 0, true⟩ }

/-- A concrete trajectory-planner oracle output. -/
def tpOut : TrajPlannerOut := ⟨⟨1, 0, 1⟩, false⟩

/-- A concrete disturbed 2D-mode agent manager state (multisim experiment,
disturbance asserted, observed position off the 2D plane height). -/
def amDisturbed : AgentManager :=
  { param := ⟨true, 2, 1, 1 / 5⟩
    mission_agent := ⟨0, ⟨5, 0, 1⟩⟩
    agent := ⟨⟨0, ⟨1, 1, 1⟩, ⟨2, 2, 2⟩⟩, 0, ⟨5, 0, 1⟩, 0⟩
    planner_state := PlannerState.GOTO
    has_current_state := false
    has_obstacles := false
    is_disturbed := false
    collision_alert := false
    cmd := ⟨true, ⟨1, 2, 5⟩, false⟩ }

/-- A concrete ideal future state (what `desired_traj.getStateAt` would
return). -/
def idealFuture : State := ⟨⟨3, 3, 3⟩, ⟨1, 0, 0⟩, ⟨0, 1, 0⟩⟩

/-! ## C3: exit semantics of `AgentManager::plan` -/

theorem plan_fst (am : AgentManager) (tp : TrajPlannerOut) :
    (plan am tp).1 =
      if am.has_obstacles = false ∨ am.has_current_state = false then
        PlanningReport.WAITFORROSMSG
      else PlanningReport.SUCCESS := by
  unfold plan
  split_ifs <;> rfl

theorem plan_resets (am : AgentManager) (tp : TrajPlannerOut)
    (h : ¬(am.has_obstacles = false ∨ am.has_current_state = false)) :
    (plan am tp).2.has_obstacles = false ∧
      (plan am tp).2.has_current_state = false := by
  unfold plan
  rw [if_neg h]
  exact ⟨rfl, rfl⟩

/-- C3: `plan` returns `WAITFORROSMSG` iff the tick's inputs are incomplete
(no obstacle array or no current state received since the previous plan),
and every returned report is one of {WAITFORROSMSG, SUCCESS,
INITTRAJGENERATIONFAIL, CONSTRAINTGENERATIONFAIL, QPFAIL}. -/
theorem plan_exit_semantics (am : AgentManager) (tp : TrajPlannerOut) :
    ((plan am tp).1 = PlanningReport.WAITFORROSMSG ↔
      (am.has_obstacles = false ∨ am.has_current_state = false)) ∧
    ((plan am tp).1 = PlanningReport.WAITFORROSMSG ∨
      (plan am tp).1 = PlanningReport.SUCCESS ∨
      (plan am tp).1 = PlanningReport.INITTRAJGENERATIONFAIL ∨
      (plan am tp).1 = PlanningReport.CONSTRAINTGENERATIONFAIL ∨
      (plan am tp).1 = PlanningReport.QPFAIL) := by
  rw [plan_fst]
  split_ifs with h
  · simp [h]
  · simp [h]

/-! ## C10: `plan` never fails and resets its input flags -/

/-- C10: `plan` only ever returns `WAITFORROSMSG` or `SUCCESS`, and after a
non-`WAITFORROSMSG` return both input flags are reset, so an immediate
repeat call (with any oracle) returns `WAITFORROSMSG`. -/
theorem plan_no_failure_and_reset (am : AgentManager) (tp : TrajPlannerOut) :
    ((plan am tp).1 = PlanningReport.WAITFORROSMSG ∨
      (plan am tp).1 = PlanningReport.SUCCESS) ∧
    ((plan am tp).1 ≠ PlanningReport.WAITFORROSMSG →
      (plan am tp).2.has_obstacles = false ∧
      (plan am tp).2.has_current_state = false ∧
      ∀ tp', (plan (plan am tp).2 tp').1 = PlanningReport.WAITFORROSMSG) := by
  by_cases h : am.has_obstacles = false ∨ am.has_current_state = false
  · rw [plan_fst, if_pos h]
    exact ⟨Or.inl rfl, fun hc => absurd rfl hc⟩
  · have hr := plan_resets am tp h
    rw [plan_fst, if_neg h]
    refine ⟨Or.inr rfl, fun _ => ⟨hr.1, hr.2, fun tp' => ?_⟩⟩
    rw [plan_fst, if_pos (Or.inl hr.1)]

/-- Witness for C10 at a concrete ready state: the call succeeds and the
repeat call waits for fresh inputs. -/
theorem plan_no_failure_and_reset_witness :
    (plan amReady tpOut).1 ≠ PlanningReport.WAITFORROSMSG ∧
    (plan amReady tpOut).2.has_obstacles = false ∧
    (plan amReady tpOut).2.has_current_state = false ∧
    (plan (plan amReady tpOut).2 tpOut).1 = PlanningReport.WAITFORROSMSG := by
  have h1 : (plan amReady tpOut).1 = PlanningReport.SUCCESS := by
    rw [plan_fst]
    simp [amReady]
  have h2 := (plan_no_failure_and_reset amReady tpOut).2 (by simp [h1])
  exact ⟨by simp [h1], h2.1, h2.2.1, h2.2.2 tpOut⟩

/-! ## C7: the PATROL branch of `planningStateTransition` -/

/-- C7: in PATROL, when the current position is within the goal threshold
of the desired goal, the pre-planning state transition swaps
`start_point` and `desired_goal_point`; otherwise the PATROL branch leaves
the whole state unchanged. -/
theorem planningStateTransition_patrol (am : AgentManager)
    (h : am.planner_state = PlannerState.PATROL) :
    (am.agent.desired_goal_point.distance am.agent.current_state.position
        < am.param.goal_threshold →
      (planningStateTransition am).agent.desired_goal_point =
          am.agent.start_point ∧
        (planningStateTransition am).agent.start_point =
          am.agent.desired_goal_point) ∧
    (¬ am.agent.desired_goal_point.distance am.agent.current_state.position
        < am.param.goal_threshold →
      planningStateTransition am = am) := by
  constructor
  · intro hd
    simp [planningStateTransition, h, hd]
  · intro hd
    simp [planningStateTransition, h, hd]

/-- A concrete patrolling agent manager state that has reached its goal. -/
def amPatrol : AgentManager :=
  { param := ⟨false, 3, 1, 1 / 5⟩
    mission_agent := ⟨0, ⟨5, 0, 1⟩⟩
    agent := ⟨⟨⟨5, 0, 1⟩, 0, 0⟩, 0, ⟨5, 0, 1⟩, 0⟩
    planner_state := PlannerState.PATROL
    has_current_state := true
    has_obstacles := true
    is_disturbed := false
    collision_alert := false
    cmd := ⟨false, 0, true⟩ }

/-- Witness for C7: a patrolling agent at its goal (distance 0 < θ_goal)
gets its start and goal swapped. -/
theorem planningStateTransition_patrol_witness :
    amPatrol.agent.desired_goal_point.distance
        amPatrol.agent.current_state.position < amPatrol.param.goal_threshold ∧
    (planningStateTransition amPatrol).agent.desired_goal_point =
      amPatrol.agent.start_point ∧
    (planningStateTransition amPatrol).agent.start_point =
      amPatrol.agent.desired_goal_point := by
  have hd : amPatrol.agent.desired_goal_point.distance
      amPatrol.agent.current_state.position < amPatrol.param.goal_threshold := by
    have h0 : amPatrol.agent.desired_goal_point.distance
        amPatrol.agent.current_state.position = 0 := by
      simp [amPatrol, Vec3.distance, Vec3.norm, Vec3.normSq, Vec3.ext_iff]
    rw [h0]; norm_num [amPatrol]
  have h := (planningStateTransition_patrol amPatrol rfl).1 hd
  exact ⟨hd, h.1, h.2⟩

/-! ## C8: `setPlannerState` is ignored while landing is in progress -/

/-- C8: a `setPlannerState` call made while the planner is in LAND and the
command executor (which exists only in multisim experiments and owns the
landing) has not yet reported the landing finished leaves the whole agent
manager unchanged; in every other situation the call sets the planner state
to the requested value and changes nothing else. -/
theorem setPlannerState_land_spec (am : AgentManager) (ns : PlannerState) :
    ((am.planner_state = PlannerState.LAND ∧
        am.param.multisim_experiment = true ∧ am.cmd.landing_finished = false) →
      setPlannerState am ns = am) ∧
    (¬(am.planner_state = PlannerState.LAND ∧
        am.param.multisim_experiment = true ∧ am.cmd.landing_finished = false) →
      setPlannerState am ns = { am with planner_state := ns }) := by
  constructor
  · rintro ⟨h1, h2, h3⟩
    simp [setPlannerState, h1, h2, h3]
  · intro h
    have h' : ¬(am.param.multisim_experiment = true ∧
        am.planner_state = PlannerState.LAND ∧ am.cmd.landing_finished = false) := by
      rintro ⟨a, b, c⟩; exact h ⟨b, a, c⟩
    simp only [setPlannerState]
    rw [if_neg]
    simpa using h'

/-- A concrete landing agent manager state (multisim, LAND, landing not
finished). -/
def amLanding : AgentManager :=
  { param := ⟨true, 3, 1, 1 / 5⟩
    mission_agent := ⟨0, ⟨5, 0, 1⟩⟩
    agent := ⟨⟨⟨5, 0, 1⟩, 0, 0⟩, 0, ⟨5, 0, 1⟩, 0⟩
    planner_state := PlannerState.LAND
    has_current_state := true
    has_obstacles := true
    is_disturbed := false
    collision_alert := false
    cmd := ⟨false, 0, false⟩ }

/-- Witness for C8: during an unfinished landing the requested state GOTO is
ignored, while the same request on a non-landing state takes effect. -/
theorem setPlannerState_land_spec_witness :
    setPlannerState amLanding PlannerState.GOTO = amLanding ∧
    (setPlannerState amReady PlannerState.GOTO).planner_state =
      PlannerState.GOTO := by
  constructor
  · exact (setPlannerState_land_spec amLanding PlannerState.GOTO).1
      ⟨rfl, rfl, rfl⟩
  · have h := (setPlannerState_land_spec amReady PlannerState.GOTO).2
      (by simp [amReady])
    rw [h]

/-! ## C4: disturbance override in `AgentManager::doStep` -/

/-- C4 counterexample: with the disturbance flag asserted in 2D mode
(`world_dimension = 2`, plane height 1) and observed position (1,2,5),
`doStep` does *not* leave the current position equal to the externally
observed position — the final z is clamped to the plane height. -/
theorem doStep_disturbed_counterexample :
    amDisturbed.param.multisim_experiment = true ∧
    amDisturbed.cmd.is_disturbed = true ∧
    (doStep amDisturbed idealFuture).agent.current_state.position ≠
      amDisturbed.cmd.observed_agent_position := by
  refine ⟨rfl, rfl, ?_⟩
  simp [doStep, amDisturbed, idealFuture, Vec3.ext_iff]

/-- C4 (amended): on a disturbed multisim tick, `doStep` overrides the
integrated state: velocity and acceleration are zeroed, the x and y of the
current position are the observed ones and its z is the observed z except
in 2D mode, where it is clamped to the configured plane height; the
integrated (ideal) future state is not applied at all — the result does
not depend on it. -/
theorem doStep_disturbed_override (am : AgentManager) (f : State)
    (hm : am.param.multisim_experiment = true)
    (hd : am.cmd.is_disturbed = true) :
    (doStep am f).agent.current_state.velocity = 0 ∧
    (doStep am f).agent.current_state.acceleration = 0 ∧
    (doStep am f).agent.current_state.position.x =
      am.cmd.observed_agent_position.x ∧
    (doStep am f).agent.current_state.position.y =
      am.cmd.observed_agent_position.y ∧
    (doStep am f).agent.current_state.position.z =
      (if am.param.world_dimension = 2 then am.param.world_z_2d
       else am.cmd.observed_agent_position.z) ∧
    (doStep am f).is_disturbed = true ∧
    (∀ f', doStep am f' = doStep am f) := by
  refine ⟨?_, ?_, ?_, ?_, ?_, ?_, fun f' => ?_⟩ <;>
    first
      | (simp only [doStep, hm, hd, if_true]; split_ifs <;> rfl)
      | simp only [doStep, hm, hd, if_true]

/-- Witness for C4 at the concrete disturbed 2D state. -/
theorem doStep_disturbed_override_witness :
    (doStep amDisturbed idealFuture).agent.current_state.velocity = 0 ∧
    (doStep amDisturbed idealFuture).agent.current_state.acceleration = 0 ∧
    (doStep amDisturbed idealFuture).agent.current_state.position.x = 1 ∧
    (doStep amDisturbed idealFuture).agent.current_state.position.y = 2 ∧
    (doStep amDisturbed idealFuture).agent.current_state.position.z = 1 := by
  have h := doStep_disturbed_override amDisturbed idealFuture rfl rfl
  refine ⟨h.1, h.2.1, ?_, ?_, ?_⟩
  · rw [h.2.2.1]
    norm_num [amDisturbed]
  · rw [h.2.2.2.1]
    norm_num [amDisturbed]
  · rw [h.2.2.2.2.1]
    norm_num [amDisturbed]

/-! ## C2: the behind-start branch of `closestPointsBetweenPointAndRay` -/

/-- C2: evaluation of the code at the failing input.  For point (0,0,5),
ray start (0,0,6) and unit direction (0,0,1), the point projects behind the
ray start; the C++ branch stores the never-assigned (default-constructed,
zero) `ray_closest_point` as `closest_point2` instead of the actual witness
`ray_start`, while `dist` is the distance 1 to the ray start — so the
returned pair is not a witness pair of the returned distance. -/
theorem closestPointsBetweenPointAndRay_behind_eval :
    (closestPointsBetweenPointAndRay ⟨0, 0, 5⟩ ⟨0, 0, 6⟩ ⟨0, 0, 1⟩).closest_point2
        = (0 : Vec3) ∧
    (closestPointsBetweenPointAndRay ⟨0, 0, 5⟩ ⟨0, 0, 6⟩ ⟨0, 0, 1⟩).closest_point2
        ≠ ⟨0, 0, 6⟩ ∧
    (closestPointsBetweenPointAndRay ⟨0, 0, 5⟩ ⟨0, 0, 6⟩ ⟨0, 0, 1⟩).dist = 1 ∧
    ((closestPointsBetweenPointAndRay ⟨0, 0, 5⟩ ⟨0, 0, 6⟩ ⟨0, 0, 1⟩).closest_point1).distance
        ((closestPointsBetweenPointAndRay ⟨0, 0, 5⟩ ⟨0, 0, 6⟩ ⟨0, 0, 1⟩).closest_point2)
        = 5 := by
  have hcond : ((⟨0, 0, 5⟩ : Vec3) - ⟨0, 0, 6⟩).dot ⟨0, 0, 1⟩ < 0 := by
    norm_num [Vec3.dot]
  have hres : closestPointsBetweenPointAndRay ⟨0, 0, 5⟩ ⟨0, 0, 6⟩ ⟨0, 0, 1⟩ =
      ⟨⟨0, 0, 5⟩, 0, ((⟨0, 0, 5⟩ : Vec3) - ⟨0, 0, 6⟩).norm⟩ := by
    simp only [closestPointsBetweenPointAndRay]
    rw [if_pos hcond]
  rw [hres]
  refine ⟨rfl, ?_, ?_, ?_⟩
  · simp [Vec3.ext_iff]
  · exact (Vec3.norm_eq_iff (by norm_num : (0:ℝ) ≤ 1)).mpr
      (by norm_num [Vec3.normSq])
  · show Vec3.distance _ _ = 5
    rw [Vec3.distance]
    exact (Vec3.norm_eq_iff (by norm_num : (0:ℝ) ≤ 5)).mpr
      (by norm_num [Vec3.normSq])

/-! ## C6: degenerate and parallel dispatch of `closestPointsBetweenLineSegments` -/

/-- C6: a segment of length below the `SP_EPSILON_FLOAT` guard degrades to
the point-to-segment routine applied to that segment's start point and the
other segment (with the witnesses swapped when the second segment is the
degenerate one), and non-degenerate segments whose normalized directions
are parallel within the epsilon guard are handled by the parallel branch. -/
theorem closestPointsBetweenLineSegments_dispatch (line1 line2 : Line) :
    (line1.start_point.distance line1.end_point < SP_EPSILON_FLOAT →
      closestPointsBetweenLineSegments line1 line2 =
        closestPointsBetweenPointAndLineSegment line1.start_point line2) ∧
    (¬ line1.start_point.distance line1.end_point < SP_EPSILON_FLOAT →
      line2.start_point.distance line2.end_point < SP_EPSILON_FLOAT →
      closestPointsBetweenLineSegments line1 line2 =
        swapCP (closestPointsBetweenPointAndLineSegment line2.start_point line1)) ∧
    (¬ line1.start_point.distance line1.end_point < SP_EPSILON_FLOAT →
      ¬ line2.start_point.distance line2.end_point < SP_EPSILON_FLOAT →
      (((1 / (line1.end_point - line1.start_point).norm) •
            (line1.end_point - line1.start_point)).cross
          ((1 / (line2.end_point - line2.start_point).norm) •
            (line2.end_point - line2.start_point))).norm < SP_EPSILON_FLOAT →
      closestPointsBetweenLineSegments line1 line2 =
        closestPointsBetweenParallelLineSegments line1 line2
          ((1 / (line1.end_point - line1.start_point).norm) •
            (line1.end_point - line1.start_point))
          (line1.end_point - line1.start_point).norm) := by
  refine ⟨fun h1 => ?_, fun h1 h2 => ?_, fun h1 h2 h3 => ?_⟩
  · simp only [closestPointsBetweenLineSegments]
    rw [if_pos h1]
  · simp only [closestPointsBetweenLineSegments]
    rw [if_neg h1, if_pos h2]
  · simp only [closestPointsBetweenLineSegments]
    rw [if_neg h1, if_neg h2, if_pos h3]

/-- Witness for C6: a zero-length first segment, a zero-length second
segment, and an exactly parallel pair, each dispatched as the claim says. -/
theorem closestPointsBetweenLineSegments_dispatch_witness :
    closestPointsBetweenLineSegments ⟨0, 0⟩ ⟨⟨1, 0, 0⟩, ⟨3, 0, 0⟩⟩ =
      closestPointsBetweenPointAndLineSegment 0 ⟨⟨1, 0, 0⟩, ⟨3, 0, 0⟩⟩ ∧
    closestPointsBetweenLineSegments ⟨0, ⟨1, 0, 0⟩⟩ ⟨⟨2, 3, 0⟩, ⟨2, 3, 0⟩⟩ =
      swapCP (closestPointsBetweenPointAndLineSegment ⟨2, 3, 0⟩ ⟨0, ⟨1, 0, 0⟩⟩) ∧
    closestPointsBetweenLineSegments ⟨0, ⟨1, 0, 0⟩⟩ ⟨⟨0, 1, 0⟩, ⟨1, 1, 0⟩⟩ =
      closestPointsBetweenParallelLineSegments ⟨0, ⟨1, 0, 0⟩⟩ ⟨⟨0, 1, 0⟩, ⟨1, 1, 0⟩⟩
        ((1 / ((⟨1, 0, 0⟩ : Vec3) - 0).norm) • ((⟨1, 0, 0⟩ : Vec3) - 0))
        ((⟨1, 0, 0⟩ : Vec3) - 0).norm := by
  have hz : (Vec3.distance 0 0) < SP_EPSILON_FLOAT := by
    have : (Vec3.distance 0 0) = 0 := by
      simp [Vec3.distance, Vec3.norm, Vec3.normSq]
    rw [this]; norm_num [SP_EPSILON_FLOAT]
  have hone : ¬ Vec3.distance 0 ⟨1, 0, 0⟩ < SP_EPSILON_FLOAT := by
    have : Vec3.distance 0 ⟨1, 0, 0⟩ = 1 :=
      (Vec3.norm_eq_iff (by norm_num : (0:ℝ) ≤ 1)).mpr (by norm_num [Vec3.normSq])
    rw [this]; norm_num [SP_EPSILON_FLOAT]
  have hpt2 : Vec3.distance ⟨2, 3, 0⟩ ⟨2, 3, 0⟩ < SP_EPSILON_FLOAT := by
    have : Vec3.distance ⟨2, 3, 0⟩ ⟨2, 3, 0⟩ = 0 := by
      simp [Vec3.distance, Vec3.norm, Vec3.normSq]
    rw [this]; norm_num [SP_EPSILON_FLOAT]
  have hseg2 : ¬ Vec3.distance ⟨0, 1, 0⟩ ⟨1, 1, 0⟩ < SP_EPSILON_FLOAT := by
    have : Vec3.distance ⟨0, 1, 0⟩ ⟨1, 1, 0⟩ = 1 :=
      (Vec3.norm_eq_iff (by norm_num : (0:ℝ) ≤ 1)).mpr (by norm_num [Vec3.normSq])
    rw [this]; norm_num [SP_EPSILON_FLOAT]
  refine ⟨(closestPointsBetweenLineSegments_dispatch _ _).1 hz,
    (closestPointsBetweenLineSegments_dispatch _ _).2.1 hone hpt2,
    (closestPointsBetweenLineSegments_dispatch _ _).2.2 hone hseg2 ?_⟩
  have hc : (((1 / ((⟨1, 0, 0⟩ : Vec3) - 0).norm) • ((⟨1, 0, 0⟩ : Vec3) - 0)).cross
      ((1 / ((⟨1, 1, 0⟩ : Vec3) - ⟨0, 1, 0⟩).norm) •
        ((⟨1, 1, 0⟩ : Vec3) - ⟨0, 1, 0⟩))).norm = 0 := by
    simp [Vec3.cross, Vec3.norm, Vec3.normSq]
  rw [hc]
  norm_num [SP_EPSILON_FLOAT]

/-! ## Vector algebra lemmas for the geometry proofs -/

namespace Vec3

@[simp] theorem add_zero' (v : Vec3) : v + 0 = v := by
  simp [ext_iff]

@[simp] theorem zero_add' (v : Vec3) : 0 + v = v := by
  simp [ext_iff]

@[simp] theorem sub_zero' (v : Vec3) : v - 0 = v := by
  simp [ext_iff]

@[simp] theorem sub_self' (v : Vec3) : v - v = 0 := by
  simp [ext_iff]

@[simp] theorem add_sub_cancel' (v p : Vec3) : v + p - p = v := by
  simp [ext_iff]

@[simp] theorem zero_smul' (v : Vec3) : (0 : ℝ) • v = 0 := by
  simp [ext_iff]

@[simp] theorem one_smul' (v : Vec3) : (1 : ℝ) • v = v := by
  simp [ext_iff]

theorem smul_smul' (k m : ℝ) (v : Vec3) : k • (m • v) = (k * m) • v := by
  simp [ext_iff]; refine ⟨by ring, by ring, by ring⟩

theorem sub_eq_iff {a b : Vec3} {p : Vec3} : a - p = b - p ↔ a = b := by
  simp only [ext_iff, sub_x, sub_y, sub_z]
  constructor
  · rintro ⟨h1, h2, h3⟩
    exact ⟨by linarith, by linarith, by linarith⟩
  · rintro ⟨h1, h2, h3⟩
    exact ⟨by linarith, by linarith, by linarith⟩

theorem normSq_smul (k : ℝ) (v : Vec3) : (k • v).normSq = k ^ 2 * v.normSq := by
  simp [normSq]; ring

theorem norm_smul' (k : ℝ) (v : Vec3) : (k • v).norm = |k| * v.norm := by
  rw [norm, normSq_smul, ← sq_abs, Real.sqrt_mul (sq_nonneg _), Real.sqrt_sq (abs_nonneg _)]
  rfl

theorem normSq_neg (v : Vec3) : (-v).normSq = v.normSq := by
  simp [normSq]

theorem norm_neg' (v : Vec3) : (-v).norm = v.norm := by
  rw [norm, normSq_neg]; rfl

theorem norm_sub_comm (a b : Vec3) : (a - b).norm = (b - a).norm := by
  have h : b - a = -(a - b) := by simp [ext_iff]
  rw [h, norm_neg']

theorem dot_comm (a b : Vec3) : a.dot b = b.dot a := by
  simp [dot]; ring

theorem dot_self_eq_normSq (a : Vec3) : a.dot a = a.normSq := by
  simp [dot, normSq]; ring

theorem normalized_of_ne_zero {v : Vec3} (h : v ≠ 0) :
    v.normalized = (1 / v.norm) • v := by
  rw [normalized, if_pos (norm_pos_iff.mpr h)]

theorem norm_normalized {v : Vec3} (h : v ≠ 0) : v.normalized.norm = 1 := by
  rw [normalized_of_ne_zero h, norm_smul',
    abs_of_pos (one_div_pos.mpr (norm_pos_iff.mpr h))]
  field_simp [ne_of_gt (norm_pos_iff.mpr h)]

theorem normSq_normalized {v : Vec3} (h : v ≠ 0) : v.normalized.normSq = 1 := by
  have := norm_normalized h
  rw [norm_eq_iff (by norm_num : (0:ℝ) ≤ 1)] at this
  simpa using this

theorem smul_norm_normalized {v : Vec3} (h : v ≠ 0) : v.norm • v.normalized = v := by
  rw [normalized_of_ne_zero h, smul_smul']
  have hv : v.norm ≠ 0 := ne_of_gt (norm_pos_iff.mpr h)
  rw [mul_one_div, div_self hv, one_smul']

end Vec3

/-! ## Characterization of `closestPointsBetweenPointAndLineSegment` -/

/-- The perpendicular-foot candidate `c` computed at `geometry.hpp:87-88`
(and again at `geometry.hpp:628-632`): the projection of `a` onto the
orthogonal complement of the direction of the segment `a → b`. -/
def segFoot (a b : Vec3) : Vec3 :=
  a - (a.dot (b - a).normalized) • (b - a).normalized

theorem pointSeg_degenerate (point : Vec3) (l : Line)
    (h : l.start_point - point = l.end_point - point) :
    closestPointsBetweenPointAndLineSegment point l =
      ⟨point, (l.start_point - point) + point, (l.start_point - point).norm⟩ := by
  simp only [closestPointsBetweenPointAndLineSegment]
  rw [if_pos h]

/-- Case analysis of the candidate selection in
`closestPointsBetweenPointAndLineSegment` for a non-degenerate segment:
the returned relative closest point is the start, the end, or the interior
perpendicular foot, with the guard conditions that selected it. -/
theorem pointSeg_cases (point : Vec3) (l : Line)
    (h : ¬ l.start_point - point = l.end_point - point) :
    closestPointsBetweenPointAndLineSegment point l =
        ⟨point, (l.start_point - point) + point, (l.start_point - point).norm⟩ ∨
    (closestPointsBetweenPointAndLineSegment point l =
        ⟨point, (l.end_point - point) + point, (l.end_point - point).norm⟩ ∧
      (l.end_point - point).norm < (l.start_point - point).norm ∧
      ¬((segFoot (l.start_point - point) (l.end_point - point) -
            (l.start_point - point)).dot
          (segFoot (l.start_point - point) (l.end_point - point) -
            (l.end_point - point)) < 0 ∧
        (segFoot (l.start_point - point) (l.end_point - point)).norm <
          (l.end_point - point).norm)) ∨
    (closestPointsBetweenPointAndLineSegment point l =
        ⟨point, segFoot (l.start_point - point) (l.end_point - point) + point,
          (segFoot (l.start_point - point) (l.end_point - point)).norm⟩ ∧
      (segFoot (l.start_point - point) (l.end_point - point) -
          (l.start_point - point)).dot
        (segFoot (l.start_point - point) (l.end_point - point) -
          (l.end_point - point)) < 0) := by
  simp only [closestPointsBetweenPointAndLineSegment, segFoot]
  rw [if_neg h]
  split_ifs with h1 h2 h3
  · exact Or.inr (Or.inr ⟨rfl, h2.1⟩)
  · exact Or.inr (Or.inl ⟨rfl, h1, fun hc => h2 ⟨hc.1, hc.2⟩⟩)
  · exact Or.inr (Or.inr ⟨rfl, h3.1⟩)
  · exact Or.inl rfl

/-- The point-to-segment routine returns an internally consistent record:
its `dist` is the distance from the query point to `closest_point2`. -/
theorem pointSeg_consistent (point : Vec3) (l : Line) :
    (closestPointsBetweenPointAndLineSegment point l).dist =
      ((closestPointsBetweenPointAndLineSegment point l).closest_point2 -
        point).norm := by
  by_cases h : l.start_point - point = l.end_point - point
  · rw [pointSeg_degenerate point l h]
    simp
  · rcases pointSeg_cases point l h with hc | ⟨hc, -⟩ | ⟨hc, -⟩ <;> rw [hc] <;> simp

namespace Vec3

@[simp] theorem norm_zero' : (0 : Vec3).norm = 0 := by
  simp [norm, normSq]

theorem sub_eq_zero_iff' {a b : Vec3} : a - b = 0 ↔ a = b := by
  simp only [ext_iff, sub_x, sub_y, sub_z, zero_x, zero_y, zero_z]
  constructor
  · rintro ⟨h1, h2, h3⟩; exact ⟨by linarith, by linarith, by linarith⟩
  · rintro ⟨h1, h2, h3⟩; exact ⟨by linarith, by linarith, by linarith⟩

theorem dot_smul_left (k : ℝ) (a b : Vec3) : (k • a).dot b = k * a.dot b := by
  simp [dot]; ring

theorem dot_smul_right (k : ℝ) (a b : Vec3) : a.dot (k • b) = k * a.dot b := by
  simp [dot]; ring

theorem dot_sub_left (a b c : Vec3) : (a - b).dot c = a.dot c - b.dot c := by
  simp [dot]; ring

theorem dot_sub_right (a b c : Vec3) : a.dot (b - c) = a.dot b - a.dot c := by
  simp [dot]; ring

theorem dot_add_left (a b c : Vec3) : (a + b).dot c = a.dot c + b.dot c := by
  simp [dot]; ring

theorem dot_add_right (a b c : Vec3) : a.dot (b + c) = a.dot b + a.dot c := by
  simp [dot]; ring

theorem dot_neg_left (a b : Vec3) : (-a).dot b = -(a.dot b) := by
  simp [dot]; ring

end Vec3

/-- The α recomputation at `geometry.hpp:115-121` recovers the relative
closest point: the difference of the two witness points returned by
`closestPointsBetweenLinePaths` equals the closest point that the
point-to-segment routine found on the relative path, and the `dist` fields
agree. -/
theorem linePaths_delta_eq (line1 line2 : Line) :
    (closestPointsBetweenLinePaths line1 line2).closest_point2 -
        (closestPointsBetweenLinePaths line1 line2).closest_point1 =
      (closestPointsBetweenPointAndLineSegment 0 (line2.lsub line1)).closest_point2 ∧
    (closestPointsBetweenLinePaths line1 line2).dist =
      (closestPointsBetweenPointAndLineSegment 0 (line2.lsub line1)).dist := by
  refine ⟨?_, rfl⟩
  have hcomb : ∀ t : ℝ,
      (line2.start_point + t • (line2.end_point - line2.start_point)) -
        (line1.start_point + t • (line1.end_point - line1.start_point)) =
      (line2.start_point - line1.start_point) +
        t • ((line2.end_point - line1.end_point) -
          (line2.start_point - line1.start_point)) := by
    intro t
    simp only [Vec3.ext_iff, Vec3.sub_x, Vec3.sub_y, Vec3.sub_z, Vec3.add_x,
      Vec3.add_y, Vec3.add_z, Vec3.smul_x, Vec3.smul_y, Vec3.smul_z]
    refine ⟨by ring, by ring, by ring⟩
  simp only [closestPointsBetweenLinePaths, Line.lsub, Line.length, Vec3.distance]
  rw [hcomb]
  set A := line2.start_point - line1.start_point with hA
  set B := line2.end_point - line1.end_point with hB
  by_cases hL : (A - B).norm > 0
  · rw [if_pos hL]
    have hABne : ¬ A = B := by
      intro he
      rw [he] at hL
      simp at hL
    have hne : ¬ A - (0 : Vec3) = B - 0 := by
      simpa using hABne
    have hLne : (A - B).norm ≠ 0 := ne_of_gt hL
    have hBA : B - A ≠ 0 := fun hc => hABne (Vec3.sub_eq_zero_iff'.mp hc).symm
    have hBAnorm : (B - A).norm = (A - B).norm := Vec3.norm_sub_comm B A
    rcases pointSeg_cases 0 ⟨A, B⟩ hne with hc | ⟨hc, -⟩ | ⟨hc, hint⟩
    · rw [hc]
      simp only [Vec3.sub_zero', Vec3.add_zero', Vec3.sub_self', Vec3.norm_zero']
      rw [zero_div, Vec3.zero_smul', Vec3.add_zero']
    · rw [hc]
      simp only [Vec3.sub_zero', Vec3.add_zero', hBAnorm]
      rw [div_self hLne, Vec3.one_smul']
      simp only [Vec3.ext_iff, Vec3.add_x, Vec3.add_y, Vec3.add_z, Vec3.sub_x,
        Vec3.sub_y, Vec3.sub_z]
      refine ⟨by ring, by ring, by ring⟩
    · rw [hc]
      simp only [Vec3.sub_zero', Vec3.add_zero'] at hint ⊢
      -- the interior foot: write it as A + t • (B - A) and recover t = -k/L
      have hnz : (B - A).normalized.normSq = 1 := Vec3.normSq_normalized hBA
      have hfootA : segFoot A B - A =
          (-(A.dot (B - A).normalized)) • (B - A).normalized := by
        simp only [segFoot, Vec3.ext_iff, Vec3.sub_x, Vec3.sub_y, Vec3.sub_z,
          Vec3.smul_x, Vec3.smul_y, Vec3.smul_z]
        refine ⟨by ring, by ring, by ring⟩
      have hBAn : B - A = (B - A).norm • (B - A).normalized :=
        (Vec3.smul_norm_normalized hBA).symm
      have hnBA : (B - A).normalized.dot (B - A) = (B - A).norm := by
        nth_rewrite 2 [hBAn]
        rw [Vec3.dot_smul_right, Vec3.dot_self_eq_normSq, hnz, mul_one]
      have hfootB : segFoot A B - B = (segFoot A B - A) - (B - A) := by
        simp only [Vec3.ext_iff, Vec3.sub_x, Vec3.sub_y, Vec3.sub_z]
        refine ⟨by ring, by ring, by ring⟩
      set k := A.dot (B - A).normalized with hk
      have hdot : (segFoot A B - A).dot (segFoot A B - B) =
          (-k) * ((-k) - (B - A).norm) := by
        rw [hfootB, Vec3.dot_sub_right, hfootA, Vec3.dot_smul_left,
          Vec3.dot_smul_right, Vec3.dot_self_eq_normSq, hnz,
          Vec3.dot_smul_left, hnBA]
        ring
      rw [hdot] at hint
      have hkneg : k < 0 := by nlinarith [hBAnorm, hL]
      have hnormfoot : (segFoot A B - A).norm = -k := by
        rw [hfootA, Vec3.norm_smul', Vec3.norm_normalized hBA, mul_one,
          abs_of_pos (by linarith : (0:ℝ) < -k)]
      rw [hnormfoot]
      have hsm : (-k / (A - B).norm) • (B - A) = (-k) • (B - A).normalized := by
        nth_rewrite 1 [hBAn]
        rw [Vec3.smul_smul', hBAnorm]
        have : -k / (A - B).norm * (A - B).norm = -k := by
          field_simp
        rw [this]
      rw [hsm]
      rw [segFoot, ← hk]
      simp only [Vec3.ext_iff, Vec3.sub_x, Vec3.sub_y, Vec3.sub_z, Vec3.add_x,
        Vec3.add_y, Vec3.add_z, Vec3.smul_x, Vec3.smul_y, Vec3.smul_z]
      refine ⟨by ring, by ring, by ring⟩
  · rw [if_neg hL]
    have hAB : A = B := by
      have h0 : (A - B).norm = 0 := le_antisymm (not_lt.mp hL) (Vec3.norm_nonneg _)
      exact Vec3.sub_eq_zero_iff'.mp (Vec3.norm_eq_zero_iff.mp h0)
    have hdeg : (⟨A, B⟩ : Line).start_point - (0 : Vec3) =
        (⟨A, B⟩ : Line).end_point - 0 := by
      simpa using hAB
    rw [pointSeg_degenerate 0 ⟨A, B⟩ hdeg]
    simp

/-! ## C9: internal consistency of the returned `ClosestPoints` records -/

theorem dist_point_add (p v : Vec3) : p.distance (p + v) = v.norm := by
  rw [Vec3.distance]
  have h : p - (p + v) = -v := by
    simp only [Vec3.ext_iff, Vec3.sub_x, Vec3.sub_y, Vec3.sub_z, Vec3.add_x,
      Vec3.add_y, Vec3.add_z, Vec3.neg_x, Vec3.neg_y, Vec3.neg_z]
    refine ⟨by ring, by ring, by ring⟩
  rw [h, Vec3.norm_neg']

/-- C9 (amended): the `dist` field equals the distance between the returned
witness pair for `closestPointsBetweenPointAndLine`, for
`closestPointsBetweenPointAndRay` whenever the point does not project
strictly behind the ray start, and for `closestPointsBetweenLinePaths`;
in the behind-the-start branch the ray routine instead returns the
default-initialized origin as `closest_point2` together with the distance
to the ray start, so its record is not internally consistent there (the
convex-hull routine delegates to the external openGJK library, whose
in-source comment says the stored value is a squared distance). -/
theorem closestPoints_consistency :
    (∀ point line_point line_direction : Vec3,
      (closestPointsBetweenPointAndLine point line_point line_direction).dist =
        ((closestPointsBetweenPointAndLine point line_point
            line_direction).closest_point1).distance
          ((closestPointsBetweenPointAndLine point line_point
            line_direction).closest_point2)) ∧
    (∀ point ray_start ray_direction : Vec3,
      ¬ (point - ray_start).dot ray_direction < 0 →
      (closestPointsBetweenPointAndRay point ray_start ray_direction).dist =
        ((closestPointsBetweenPointAndRay point ray_start
            ray_direction).closest_point1).distance
          ((closestPointsBetweenPointAndRay point ray_start
            ray_direction).closest_point2)) ∧
    (∀ point ray_start ray_direction : Vec3,
      (point - ray_start).dot ray_direction < 0 →
      (closestPointsBetweenPointAndRay point ray_start
          ray_direction).closest_point2 = 0 ∧
      (closestPointsBetweenPointAndRay point ray_start ray_direction).dist =
        (point - ray_start).norm) ∧
    (∀ line1 line2 : Line,
      (closestPointsBetweenLinePaths line1 line2).dist =
        ((closestPointsBetweenLinePaths line1 line2).closest_point1).distance
          ((closestPointsBetweenLinePaths line1 line2).closest_point2)) := by
  have hline : ∀ point line_point line_direction : Vec3,
      (closestPointsBetweenPointAndLine point line_point line_direction).dist =
        ((closestPointsBetweenPointAndLine point line_point
            line_direction).closest_point1).distance
          ((closestPointsBetweenPointAndLine point line_point
            line_direction).closest_point2) := by
    intro point lp ld
    simp only [closestPointsBetweenPointAndLine]
    rw [dist_point_add]
  refine ⟨hline, ?_, ?_, ?_⟩
  · intro point rs rd h
    simp only [closestPointsBetweenPointAndRay]
    rw [if_neg h]
    exact hline point rs rd
  · intro point rs rd h
    simp only [closestPointsBetweenPointAndRay]
    rw [if_pos h]
    exact ⟨rfl, rfl⟩
  · intro line1 line2
    rcases linePaths_delta_eq line1 line2 with ⟨hdelta, hdist⟩
    rw [hdist, pointSeg_consistent, Vec3.sub_zero', ← hdelta, Vec3.distance,
      Vec3.norm_sub_comm]

/-- C9 counterexample: at point (0,0,5), ray start (0,0,6), direction
(0,0,1) — the point projecting behind the ray start — the ray routine's
`dist` (1, the distance to the ray start) differs from the distance between
its returned witness pair (5, since `closest_point2` was left at the
default-constructed origin). -/
theorem closestPoints_consistency_counterexample :
    (closestPointsBetweenPointAndRay ⟨0, 0, 5⟩ ⟨0, 0, 6⟩ ⟨0, 0, 1⟩).dist ≠
      ((closestPointsBetweenPointAndRay ⟨0, 0, 5⟩ ⟨0, 0, 6⟩
          ⟨0, 0, 1⟩).closest_point1).distance
        ((closestPointsBetweenPointAndRay ⟨0, 0, 5⟩ ⟨0, 0, 6⟩
          ⟨0, 0, 1⟩).closest_point2) := by
  have hcond : ((⟨0, 0, 5⟩ : Vec3) - ⟨0, 0, 6⟩).dot ⟨0, 0, 1⟩ < 0 := by
    norm_num [Vec3.dot]
  have hres : closestPointsBetweenPointAndRay ⟨0, 0, 5⟩ ⟨0, 0, 6⟩ ⟨0, 0, 1⟩ =
      ⟨⟨0, 0, 5⟩, 0, ((⟨0, 0, 5⟩ : Vec3) - ⟨0, 0, 6⟩).norm⟩ := by
    simp only [closestPointsBetweenPointAndRay]
    rw [if_pos hcond]
  rw [hres]
  have h1 : ((⟨0, 0, 5⟩ : Vec3) - ⟨0, 0, 6⟩).norm = 1 :=
    (Vec3.norm_eq_iff (by norm_num : (0:ℝ) ≤ 1)).mpr (by norm_num [Vec3.normSq])
  have h5 : (⟨0, 0, 5⟩ : Vec3).distance 0 = 5 := by
    rw [Vec3.distance]
    exact (Vec3.norm_eq_iff (by norm_num : (0:ℝ) ≤ 5)).mpr
      (by norm_num [Vec3.normSq])
  simp only [ClosestPoints.dist, ClosestPoints.closest_point1,
    ClosestPoints.closest_point2]
  rw [h1, h5]
  norm_num

/-- Witness for C9 at concrete inputs: a forward-projecting ray query is
consistent, and a behind-projecting one returns the origin default. -/
theorem closestPoints_consistency_witness :
    (closestPointsBetweenPointAndRay ⟨0, 0, 7⟩ ⟨0, 0, 6⟩ ⟨0, 0, 1⟩).dist =
      ((closestPointsBetweenPointAndRay ⟨0, 0, 7⟩ ⟨0, 0, 6⟩
          ⟨0, 0, 1⟩).closest_point1).distance
        ((closestPointsBetweenPointAndRay ⟨0, 0, 7⟩ ⟨0, 0, 6⟩
          ⟨0, 0, 1⟩).closest_point2) ∧
    (closestPointsBetweenPointAndRay ⟨0, 0, 5⟩ ⟨0, 0, 6⟩
        ⟨0, 0, 1⟩).closest_point2 = 0 := by
  constructor
  · exact closestPoints_consistency.2.1 ⟨0, 0, 7⟩ ⟨0, 0, 6⟩ ⟨0, 0, 1⟩
      (by norm_num [Vec3.dot])
  · exact (closestPoints_consistency.2.2.1 ⟨0, 0, 5⟩ ⟨0, 0, 6⟩ ⟨0, 0, 1⟩
      (by norm_num [Vec3.dot])).1

/-! ## C1: the collision-entry time -/

namespace Vec3

theorem normSq_add (u v : Vec3) :
    (u + v).normSq = u.normSq + 2 * u.dot v + v.normSq := by
  simp [normSq, dot]; ring

end Vec3

/-- The smaller root of `‖a + α·(b − a)‖ = r`, written with the quantities
the code manipulates: the parameter `−(a·n)/L` of the perpendicular foot
minus the in-sphere half-chord `√(r² − dist_to_foot²)` over the relative
segment length `L`. -/
def entryAlpha (a b : Vec3) (r : ℝ) : ℝ :=
  -(a.dot (b - a).normalized) / (b - a).norm -
    Real.sqrt (r ^ 2 - (segFoot a b).norm ^ 2) / (b - a).norm

theorem entry_repr (a b : Vec3) (hab : a ≠ b) :
    ∀ β : ℝ, (a + β • (b - a)).normSq =
      (segFoot a b).normSq +
        (β - -(a.dot (b - a).normalized) / (b - a).norm) ^ 2 *
          (b - a).norm ^ 2 := by
  intro β
  have hBA : b - a ≠ 0 := fun hc => hab (Vec3.sub_eq_zero_iff'.mp hc).symm
  have hLn : (b - a).norm ≠ 0 := ne_of_gt (Vec3.norm_pos_iff.mpr hBA)
  have hnz : (b - a).normalized.normSq = 1 := Vec3.normSq_normalized hBA
  have hba : b - a = (b - a).norm • (b - a).normalized :=
    (Vec3.smul_norm_normalized hBA).symm
  have hperp : (segFoot a b).dot (b - a).normalized = 0 := by
    rw [segFoot, Vec3.dot_sub_left, Vec3.dot_smul_left,
      Vec3.dot_self_eq_normSq, hnz]
    ring
  have hrepr : a + β • (b - a) =
      segFoot a b +
        ((β - -(a.dot (b - a).normalized) / (b - a).norm) * (b - a).norm) •
          (b - a).normalized := by
    rw [segFoot]
    nth_rewrite 1 [hba]
    rw [Vec3.smul_smul']
    simp only [Vec3.ext_iff, Vec3.add_x, Vec3.add_y, Vec3.add_z, Vec3.sub_x,
      Vec3.sub_y, Vec3.sub_z, Vec3.smul_x, Vec3.smul_y, Vec3.smul_z]
    refine ⟨?_, ?_, ?_⟩ <;> field_simp <;> ring
  rw [hrepr, Vec3.normSq_add, Vec3.dot_smul_right, hperp, Vec3.normSq_smul, hnz]
  ring

/-- Pure real-arithmetic core of the smaller-root computation: with
`t = −k/L` the parameter of the perpendicular foot and
`s = √(r² − dc²)` the in-sphere half-chord, `t − s/L` is positive and is
the least `β` with `dc² + (β − t)²·L² = r²`. -/
theorem least_root_arith (k L dc r : ℝ) (hL : 0 < L) (hr : 0 < r)
    (hdc0 : 0 ≤ dc) (hdc : dc ≤ r) (hk : k < 0)
    (hA : r ^ 2 < dc ^ 2 + (-k / L) ^ 2 * L ^ 2) :
    0 < (-k - Real.sqrt (r ^ 2 - dc ^ 2)) / L ∧
    dc ^ 2 + ((-k - Real.sqrt (r ^ 2 - dc ^ 2)) / L - -k / L) ^ 2 * L ^ 2 =
      r ^ 2 ∧
    ∀ β : ℝ, dc ^ 2 + (β - -k / L) ^ 2 * L ^ 2 = r ^ 2 →
      (-k - Real.sqrt (r ^ 2 - dc ^ 2)) / L ≤ β := by
  have hLn : L ≠ 0 := ne_of_gt hL
  have hs2 : Real.sqrt (r ^ 2 - dc ^ 2) ^ 2 = r ^ 2 - dc ^ 2 :=
    Real.sq_sqrt (by nlinarith)
  have hs0 : 0 ≤ Real.sqrt (r ^ 2 - dc ^ 2) := Real.sqrt_nonneg _
  set s := Real.sqrt (r ^ 2 - dc ^ 2) with hsdef
  have hk2 : (-k / L) ^ 2 * L ^ 2 = k ^ 2 := by field_simp
  have hkgt : s < -k := by
    have h1 : s ^ 2 < k ^ 2 := by nlinarith
    nlinarith
  refine ⟨?_, ?_, ?_⟩
  · exact div_pos (by linarith) hL
  · have harg : ((-k - s) / L - -k / L) ^ 2 * L ^ 2 = s ^ 2 := by
      field_simp
      ring
    rw [harg, hs2]
    ring
  · intro β hβ
    have hsq : (β - -k / L) ^ 2 * L ^ 2 = s ^ 2 := by rw [hs2]; linarith
    have habs : |β - -k / L| * L = s := by
      have h1 : (|β - -k / L| * L) ^ 2 = s ^ 2 := by
        rw [mul_pow, sq_abs, hsq]
      nlinarith [abs_nonneg (β - -k / L),
        mul_nonneg (abs_nonneg (β - -k / L)) (le_of_lt hL)]
    have h2 : |β - -k / L| = s / L := by rw [eq_div_iff hLn]; exact habs
    have h3 := neg_abs_le (β - -k / L)
    rw [h2] at h3
    have hsplit : (-k - s) / L = -k / L - s / L := by ring
    rw [hsplit]
    linarith

/-- `entryAlpha` is positive and is the least root of `‖a + α·(b−a)‖ = r`,
provided the perpendicular foot of the origin lies within distance `r` of
the origin, the start lies strictly outside the sphere, and the foot lies
strictly forward of the start (`a·n < 0`). -/
theorem entry_root_spec (a b : Vec3) (r : ℝ) (hab : a ≠ b) (hr : 0 < r)
    (hdc : (segFoot a b).norm ≤ r) (hra : r < a.norm)
    (hk : a.dot (b - a).normalized < 0) :
    0 < entryAlpha a b r ∧
    (a + entryAlpha a b r • (b - a)).norm = r ∧
    ∀ β : ℝ, (a + β • (b - a)).norm = r → entryAlpha a b r ≤ β := by
  have hBA : b - a ≠ 0 := fun hc => hab (Vec3.sub_eq_zero_iff'.mp hc).symm
  have hLpos : 0 < (b - a).norm := Vec3.norm_pos_iff.mpr hBA
  have hdc0 : 0 ≤ (segFoot a b).norm := Vec3.norm_nonneg _
  have hQ := entry_repr a b hab
  have hsqc : (segFoot a b).norm ^ 2 = (segFoot a b).normSq := Vec3.sq_norm _
  have hA : r ^ 2 < (segFoot a b).norm ^ 2 +
      (-(a.dot (b - a).normalized) / (b - a).norm) ^ 2 * (b - a).norm ^ 2 := by
    have h0 : a.norm ^ 2 = (segFoot a b).norm ^ 2 +
        (-(a.dot (b - a).normalized) / (b - a).norm) ^ 2 *
          (b - a).norm ^ 2 := by
      rw [Vec3.sq_norm a, hsqc]
      have := hQ 0
      simp only [Vec3.zero_smul', Vec3.add_zero'] at this
      rw [this]
      ring
    have hr2 : r ^ 2 < a.norm ^ 2 := by nlinarith [a.norm_nonneg]
    linarith
  have hcore := least_root_arith (a.dot (b - a).normalized) (b - a).norm
    (segFoot a b).norm r hLpos hr hdc0 hdc hk hA
  have halpha : entryAlpha a b r =
      (-(a.dot (b - a).normalized) -
        Real.sqrt (r ^ 2 - (segFoot a b).norm ^ 2)) / (b - a).norm := by
    rw [entryAlpha]; ring
  refine ⟨by rw [halpha]; exact hcore.1, ?_, ?_⟩
  · rw [Vec3.norm_eq_iff (le_of_lt hr), hQ (entryAlpha a b r), ← hsqc, halpha]
    exact hcore.2.1
  · intro β hβ
    rw [Vec3.norm_eq_iff (le_of_lt hr), hQ β, ← hsqc] at hβ
    rw [halpha]
    exact hcore.2.2 β hβ

namespace Vec3

theorem norm_mul_self (v : Vec3) : v.norm * v.norm = v.normSq := by
  rw [← Vec3.sq_norm]; ring

end Vec3

theorem add_one_smul_sub (a b : Vec3) : a + (1 : ℝ) • (b - a) = b := by
  simp only [Vec3.ext_iff, Vec3.add_x, Vec3.add_y, Vec3.add_z, Vec3.smul_x,
    Vec3.smul_y, Vec3.smul_z, Vec3.sub_x, Vec3.sub_y, Vec3.sub_z]
  refine ⟨by ring, by ring, by ring⟩

/-- The sign quantity of the interiority test `(c−a)·(c−b) < 0` for the
perpendicular foot `c = segFoot a b`, in terms of `k = a·n` and the segment
length. -/
theorem segFoot_dot_value (a b : Vec3) (hab : a ≠ b) :
    (segFoot a b - a).dot (segFoot a b - b) =
      (-(a.dot (b - a).normalized)) *
        (-(a.dot (b - a).normalized) - (b - a).norm) := by
  have hBA : b - a ≠ 0 := fun hc => hab (Vec3.sub_eq_zero_iff'.mp hc).symm
  have hnz : (b - a).normalized.normSq = 1 := Vec3.normSq_normalized hBA
  have hba : b - a = (b - a).norm • (b - a).normalized :=
    (Vec3.smul_norm_normalized hBA).symm
  have hnBA : (b - a).normalized.dot (b - a) = (b - a).norm := by
    nth_rewrite 2 [hba]
    rw [Vec3.dot_smul_right, Vec3.dot_self_eq_normSq, hnz, mul_one]
  have hfootA : segFoot a b - a =
      (-(a.dot (b - a).normalized)) • (b - a).normalized := by
    simp only [segFoot, Vec3.ext_iff, Vec3.sub_x, Vec3.sub_y, Vec3.sub_z,
      Vec3.smul_x, Vec3.smul_y, Vec3.smul_z]
    refine ⟨by ring, by ring, by ring⟩
  have hfootB : segFoot a b - b = (segFoot a b - a) - (b - a) := by
    simp only [Vec3.ext_iff, Vec3.sub_x, Vec3.sub_y, Vec3.sub_z]
    refine ⟨by ring, by ring, by ring⟩
  rw [hfootB, Vec3.dot_sub_right, hfootA, Vec3.dot_smul_left,
    Vec3.dot_smul_right, Vec3.dot_self_eq_normSq, hnz,
    Vec3.dot_smul_left, hnBA]
  ring

/-- `‖a‖²` and `‖b‖²` decomposed against the perpendicular foot of the
origin on the line through `a` and `b`. -/
theorem segFoot_normSq_ends (a b : Vec3) (hab : a ≠ b) :
    a.normSq = (segFoot a b).normSq + (a.dot (b - a).normalized) ^ 2 ∧
    b.normSq = (segFoot a b).normSq +
      ((b - a).norm + a.dot (b - a).normalized) ^ 2 := by
  have hBA : b - a ≠ 0 := fun hc => hab (Vec3.sub_eq_zero_iff'.mp hc).symm
  have hLn : (b - a).norm ≠ 0 := ne_of_gt (Vec3.norm_pos_iff.mpr hBA)
  constructor
  · have h := entry_repr a b hab 0
    simp only [Vec3.zero_smul', Vec3.add_zero'] at h
    have heq : ((0 : ℝ) - -(a.dot (b - a).normalized) / (b - a).norm) ^ 2 *
        (b - a).norm ^ 2 = (a.dot (b - a).normalized) ^ 2 := by
      field_simp
    rw [h, heq]
  · have h := entry_repr a b hab 1
    rw [add_one_smul_sub] at h
    have heq : ((1 : ℝ) - -(a.dot (b - a).normalized) / (b - a).norm) ^ 2 *
        (b - a).norm ^ 2 =
        ((b - a).norm + a.dot (b - a).normalized) ^ 2 := by
      field_simp
      try ring
    rw [h, heq]

/-- Specialization of `pointSeg_cases` to the relative path queried from
the origin inside `closestPointsBetweenLinePaths line1 line2`. -/
theorem relSeg_cases (line1 line2 : Line)
    (hab : line2.start_point - line1.start_point ≠
      line2.end_point - line1.end_point) :
    closestPointsBetweenPointAndLineSegment 0 (line2.lsub line1) =
        ⟨0, line2.start_point - line1.start_point,
          (line2.start_point - line1.start_point).norm⟩ ∨
    (closestPointsBetweenPointAndLineSegment 0 (line2.lsub line1) =
        ⟨0, line2.end_point - line1.end_point,
          (line2.end_point - line1.end_point).norm⟩ ∧
      (line2.end_point - line1.end_point).norm <
        (line2.start_point - line1.start_point).norm ∧
      ¬((segFoot (line2.start_point - line1.start_point)
            (line2.end_point - line1.end_point) -
            (line2.start_point - line1.start_point)).dot
          (segFoot (line2.start_point - line1.start_point)
              (line2.end_point - line1.end_point) -
            (line2.end_point - line1.end_point)) < 0 ∧
        (segFoot (line2.start_point - line1.start_point)
            (line2.end_point - line1.end_point)).norm <
          (line2.end_point - line1.end_point).norm)) ∨
    (closestPointsBetweenPointAndLineSegment 0 (line2.lsub line1) =
        ⟨0, segFoot (line2.start_point - line1.start_point)
            (line2.end_point - line1.end_point),
          (segFoot (line2.start_point - line1.start_point)
            (line2.end_point - line1.end_point)).norm⟩ ∧
      (segFoot (line2.start_point - line1.start_point)
          (line2.end_point - line1.end_point) -
          (line2.start_point - line1.start_point)).dot
        (segFoot (line2.start_point - line1.start_point)
            (line2.end_point - line1.end_point) -
          (line2.end_point - line1.end_point)) < 0) := by
  have hne : ¬ (line2.lsub line1).start_point - (0 : Vec3) =
      (line2.lsub line1).end_point - 0 := by
    simp only [Line.lsub, Vec3.sub_zero']
    exact hab
  have h := pointSeg_cases 0 (line2.lsub line1) hne
  simp only [Line.lsub, Vec3.sub_zero', Vec3.add_zero'] at h
  exact h

/-- Scalar derivation for the endpoint-minimizer case of the collision-time
analysis: if the relative end point is strictly closer than the start and
the interior foot was not selected, then the foot parameter `t = −k/L` is
at least 1. -/
theorem endpoint_case_scalar (k L dcSq bSq aSq : ℝ) (hL : 0 < L)
    (haSq : aSq = dcSq + k ^ 2)
    (hbSq : bSq = dcSq + (L + k) ^ 2)
    (hlt : bSq < aSq)
    (hnotc : ¬((-k) * (-k - L) < 0 ∧ dcSq < bSq)) :
    k < 0 ∧ L + k ≤ 0 := by
  have hk : 2 * L * k + L ^ 2 < 0 := by nlinarith
  have hkneg : k < 0 := by nlinarith
  refine ⟨hkneg, ?_⟩
  by_contra hpos
  push_neg at hpos
  exact hnotc ⟨by nlinarith, by nlinarith⟩

/-- Scalar derivation for the interior-foot case: the interiority test
`(−k)·(−k−L) < 0` forces `−L < k < 0`. -/
theorem interior_case_scalar (k L : ℝ) (hL : 0 < L)
    (hint : (-k) * (-k - L) < 0) : -L < k ∧ k < 0 := by
  constructor <;> nlinarith

/-- C1 (amended): let `R(α) = a + α·(b − a)` be the relative path of the
two equal-duration linear paths (`a`, `b` the relative positions at the
ends).  If the minimum of `‖R(α)‖` over the path exceeds `r`,
`computeCollisionTime` returns the `SP_INFINITY` sentinel; if the paths
already start within the collision radius (`‖a‖ ≤ r`) it returns 0;
otherwise it returns `α_entry · T` where `α_entry` is the smaller (least)
root of `‖R(α)‖ = r`, the endpoint-minimizer case being handled by its own
branch. -/
theorem computeCollisionTime_spec (obs_path agent_path : Line) (r T : ℝ)
    (hr : 0 < r) :
    (r < (closestPointsBetweenLinePaths obs_path agent_path).dist →
      computeCollisionTime obs_path agent_path r T = SP_INFINITY) ∧
    ((closestPointsBetweenLinePaths obs_path agent_path).dist ≤ r →
      (agent_path.start_point - obs_path.start_point).norm ≤ r →
      computeCollisionTime obs_path agent_path r T = 0) ∧
    ((closestPointsBetweenLinePaths obs_path agent_path).dist ≤ r →
      r < (agent_path.start_point - obs_path.start_point).norm →
      ∃ α : ℝ, 0 < α ∧
        ((agent_path.start_point - obs_path.start_point) +
            α • ((agent_path.end_point - obs_path.end_point) -
              (agent_path.start_point - obs_path.start_point))).norm = r ∧
        (∀ β : ℝ,
          ((agent_path.start_point - obs_path.start_point) +
              β • ((agent_path.end_point - obs_path.end_point) -
                (agent_path.start_point - obs_path.start_point))).norm = r →
          α ≤ β) ∧
        computeCollisionTime obs_path agent_path r T = α * T) := by
  refine ⟨?_, ?_, ?_⟩
  · intro h
    simp only [computeCollisionTime]
    rw [if_neg (not_le.mpr h)]
  · intro h1 h2
    simp only [computeCollisionTime]
    rw [if_pos h1, if_pos h2]
  · intro h1 h2
    have hd0 := (linePaths_delta_eq obs_path agent_path).2
    have hdelta := (linePaths_delta_eq obs_path agent_path).1
    have hab : agent_path.start_point - obs_path.start_point ≠
        agent_path.end_point - obs_path.end_point := by
      intro he
      have hdeg : (agent_path.lsub obs_path).start_point - (0 : Vec3) =
          (agent_path.lsub obs_path).end_point - 0 := by
        simp only [Line.lsub, Vec3.sub_zero']
        exact he
      have hres := pointSeg_degenerate 0 (agent_path.lsub obs_path) hdeg
      have hdist : (closestPointsBetweenLinePaths obs_path agent_path).dist =
          ((agent_path.lsub obs_path).start_point - (0 : Vec3)).norm := by
        rw [hd0, hres]
      rw [hdist] at h1
      simp only [Line.lsub, Vec3.sub_zero'] at h1
      exact absurd h1 (not_le.mpr h2)
    have hBA : (agent_path.end_point - obs_path.end_point) -
        (agent_path.start_point - obs_path.start_point) ≠ 0 :=
      fun hcz => hab (Vec3.sub_eq_zero_iff'.mp hcz).symm
    have hLpos : 0 < ((agent_path.end_point - obs_path.end_point) -
        (agent_path.start_point - obs_path.start_point)).norm :=
      Vec3.norm_pos_iff.mpr hBA
    have hLne : ((agent_path.end_point - obs_path.end_point) -
        (agent_path.start_point - obs_path.start_point)).norm ≠ 0 :=
      ne_of_gt hLpos
    obtain ⟨hQ0, hQ1⟩ := segFoot_normSq_ends
      (agent_path.start_point - obs_path.start_point)
      (agent_path.end_point - obs_path.end_point) hab
    have hdotv := segFoot_dot_value
      (agent_path.start_point - obs_path.start_point)
      (agent_path.end_point - obs_path.end_point) hab
    rcases relSeg_cases obs_path agent_path hab with
      hc | ⟨hc, hlt, hnotc⟩ | ⟨hc, hint⟩
    · exfalso
      have hdi : (closestPointsBetweenLinePaths obs_path agent_path).dist =
          (agent_path.start_point - obs_path.start_point).norm := by
        rw [hd0, hc]
      rw [hdi] at h1
      exact absurd h1 (not_le.mpr h2)
    · -- minimizer at the relative end point: the `delta == b` branch
      have hdb : (closestPointsBetweenLinePaths obs_path agent_path).dist =
          (agent_path.end_point - obs_path.end_point).norm := by
        rw [hd0, hc]
      have h1b : (agent_path.end_point - obs_path.end_point).norm ≤ r := by
        rw [← hdb]; exact h1
      obtain ⟨hkneg, hLK⟩ := endpoint_case_scalar
        ((agent_path.start_point - obs_path.start_point).dot
          ((agent_path.end_point - obs_path.end_point) -
            (agent_path.start_point - obs_path.start_point)).normalized)
        (((agent_path.end_point - obs_path.end_point) -
          (agent_path.start_point - obs_path.start_point)).norm)
        ((segFoot (agent_path.start_point - obs_path.start_point)
          (agent_path.end_point - obs_path.end_point)).normSq)
        ((agent_path.end_point - obs_path.end_point).normSq)
        ((agent_path.start_point - obs_path.start_point).normSq)
        hLpos hQ0 hQ1 (Vec3.norm_lt_norm_iff.mp hlt)
        (by
          rintro ⟨hx, hy⟩
          exact hnotc ⟨by rw [hdotv]; exact hx, Vec3.norm_lt_norm_iff.mpr hy⟩)
      have hdcle : (segFoot (agent_path.start_point - obs_path.start_point)
          (agent_path.end_point - obs_path.end_point)).norm ≤ r :=
        le_trans (Vec3.norm_le_norm_iff.mpr (by rw [hQ1]; nlinarith)) h1b
      have hroot := entry_root_spec
        (agent_path.start_point - obs_path.start_point)
        (agent_path.end_point - obs_path.end_point) r hab hr hdcle h2 hkneg
      refine ⟨entryAlpha (agent_path.start_point - obs_path.start_point)
          (agent_path.end_point - obs_path.end_point) r,
        hroot.1, hroot.2.1, hroot.2.2, ?_⟩
      simp only [computeCollisionTime]
      rw [if_pos h1, if_neg (not_le.mpr h2)]
      have hcond :
          (closestPointsBetweenLinePaths obs_path agent_path).closest_point2 -
            (closestPointsBetweenLinePaths obs_path agent_path).closest_point1 =
          agent_path.end_point - obs_path.end_point := by
        rw [hdelta, hc]
      rw [if_pos hcond]
      have hfold : (agent_path.start_point - obs_path.start_point) -
          ((agent_path.start_point - obs_path.start_point).dot
            ((agent_path.end_point - obs_path.end_point) -
              (agent_path.start_point - obs_path.start_point)).normalized) •
            ((agent_path.end_point - obs_path.end_point) -
              (agent_path.start_point - obs_path.start_point)).normalized =
          segFoot (agent_path.start_point - obs_path.start_point)
            (agent_path.end_point - obs_path.end_point) := rfl
      rw [hfold]
      have harg1 : r * r -
          (segFoot (agent_path.start_point - obs_path.start_point)
            (agent_path.end_point - obs_path.end_point)).norm *
          (segFoot (agent_path.start_point - obs_path.start_point)
            (agent_path.end_point - obs_path.end_point)).norm =
          r ^ 2 - (segFoot (agent_path.start_point - obs_path.start_point)
            (agent_path.end_point - obs_path.end_point)).norm ^ 2 := by
        ring
      have harg2 : (agent_path.end_point - obs_path.end_point).norm *
          (agent_path.end_point - obs_path.end_point).norm -
          (segFoot (agent_path.start_point - obs_path.start_point)
            (agent_path.end_point - obs_path.end_point)).norm *
          (segFoot (agent_path.start_point - obs_path.start_point)
            (agent_path.end_point - obs_path.end_point)).norm =
          (-((((agent_path.end_point - obs_path.end_point) -
            (agent_path.start_point - obs_path.start_point)).norm) +
            ((agent_path.start_point - obs_path.start_point).dot
              ((agent_path.end_point - obs_path.end_point) -
                (agent_path.start_point - obs_path.start_point)).normalized)))
            ^ 2 := by
        rw [Vec3.norm_mul_self, Vec3.norm_mul_self, hQ1]
        ring
      rw [harg1, harg2, Real.sqrt_sq (by linarith : (0:ℝ) ≤
        -((((agent_path.end_point - obs_path.end_point) -
          (agent_path.start_point - obs_path.start_point)).norm) +
          ((agent_path.start_point - obs_path.start_point).dot
            ((agent_path.end_point - obs_path.end_point) -
              (agent_path.start_point - obs_path.start_point)).normalized)))]
      have hfin : 1 - (Real.sqrt (r ^ 2 -
          (segFoot (agent_path.start_point - obs_path.start_point)
            (agent_path.end_point - obs_path.end_point)).norm ^ 2) -
          -((((agent_path.end_point - obs_path.end_point) -
            (agent_path.start_point - obs_path.start_point)).norm) +
            ((agent_path.start_point - obs_path.start_point).dot
              ((agent_path.end_point - obs_path.end_point) -
                (agent_path.start_point - obs_path.start_point)).normalized))) /
          (((agent_path.end_point - obs_path.end_point) -
            (agent_path.start_point - obs_path.start_point)).norm) =
          entryAlpha (agent_path.start_point - obs_path.start_point)
            (agent_path.end_point - obs_path.end_point) r := by
        rw [entryAlpha]
        field_simp
        ring
      rw [hfin]
    · -- interior-foot case: the final branch
      have hdc : (closestPointsBetweenLinePaths obs_path agent_path).dist =
          (segFoot (agent_path.start_point - obs_path.start_point)
            (agent_path.end_point - obs_path.end_point)).norm := by
        rw [hd0, hc]
      have hint' : (-(((agent_path.start_point - obs_path.start_point).dot
          ((agent_path.end_point - obs_path.end_point) -
            (agent_path.start_point - obs_path.start_point)).normalized))) *
          ((-(((agent_path.start_point - obs_path.start_point).dot
            ((agent_path.end_point - obs_path.end_point) -
              (agent_path.start_point - obs_path.start_point)).normalized))) -
            (((agent_path.end_point - obs_path.end_point) -
              (agent_path.start_point - obs_path.start_point)).norm)) < 0 := by
        rw [← hdotv]
        exact hint
      obtain ⟨hgtL, hkneg⟩ := interior_case_scalar
        ((agent_path.start_point - obs_path.start_point).dot
          ((agent_path.end_point - obs_path.end_point) -
            (agent_path.start_point - obs_path.start_point)).normalized)
        (((agent_path.end_point - obs_path.end_point) -
          (agent_path.start_point - obs_path.start_point)).norm)
        hLpos hint'
      have hdcle : (segFoot (agent_path.start_point - obs_path.start_point)
          (agent_path.end_point - obs_path.end_point)).norm ≤ r := by
        rw [← hdc]; exact h1
      have hroot := entry_root_spec
        (agent_path.start_point - obs_path.start_point)
        (agent_path.end_point - obs_path.end_point) r hab hr hdcle h2 hkneg
      refine ⟨entryAlpha (agent_path.start_point - obs_path.start_point)
          (agent_path.end_point - obs_path.end_point) r,
        hroot.1, hroot.2.1, hroot.2.2, ?_⟩
      simp only [computeCollisionTime]
      rw [if_pos h1, if_neg (not_le.mpr h2)]
      have hLK : 0 < (((agent_path.end_point - obs_path.end_point) -
          (agent_path.start_point - obs_path.start_point)).norm) +
          ((agent_path.start_point - obs_path.start_point).dot
            ((agent_path.end_point - obs_path.end_point) -
              (agent_path.start_point - obs_path.start_point)).normalized) := by
        linarith
      have hneqb :
          ¬ ((closestPointsBetweenLinePaths obs_path agent_path).closest_point2 -
            (closestPointsBetweenLinePaths obs_path agent_path).closest_point1 =
            agent_path.end_point - obs_path.end_point) := by
        rw [hdelta, hc]
        intro he
        have he' : segFoot (agent_path.start_point - obs_path.start_point)
            (agent_path.end_point - obs_path.end_point) =
            agent_path.end_point - obs_path.end_point := he
        have hns : (segFoot (agent_path.start_point - obs_path.start_point)
            (agent_path.end_point - obs_path.end_point)).normSq =
            (agent_path.end_point - obs_path.end_point).normSq := by
          rw [he']
        rw [hQ1] at hns
        nlinarith
      rw [if_neg hneqb, hdc]
      have harg1 : r * r -
          (segFoot (agent_path.start_point - obs_path.start_point)
            (agent_path.end_point - obs_path.end_point)).norm *
          (segFoot (agent_path.start_point - obs_path.start_point)
            (agent_path.end_point - obs_path.end_point)).norm =
          r ^ 2 - (segFoot (agent_path.start_point - obs_path.start_point)
            (agent_path.end_point - obs_path.end_point)).norm ^ 2 := by
        ring
      have harg2 : (agent_path.end_point - obs_path.end_point).norm *
          (agent_path.end_point - obs_path.end_point).norm -
          (segFoot (agent_path.start_point - obs_path.start_point)
            (agent_path.end_point - obs_path.end_point)).norm *
          (segFoot (agent_path.start_point - obs_path.start_point)
            (agent_path.end_point - obs_path.end_point)).norm =
          ((((agent_path.end_point - obs_path.end_point) -
            (agent_path.start_point - obs_path.start_point)).norm) +
            ((agent_path.start_point - obs_path.start_point).dot
              ((agent_path.end_point - obs_path.end_point) -
                (agent_path.start_point - obs_path.start_point)).normalized))
            ^ 2 := by
        rw [Vec3.norm_mul_self, Vec3.norm_mul_self, hQ1]
        ring
      rw [harg1, harg2, Real.sqrt_sq (le_of_lt hLK)]
      have hfin : 1 - (Real.sqrt (r ^ 2 -
          (segFoot (agent_path.start_point - obs_path.start_point)
            (agent_path.end_point - obs_path.end_point)).norm ^ 2) +
          ((((agent_path.end_point - obs_path.end_point) -
            (agent_path.start_point - obs_path.start_point)).norm) +
            ((agent_path.start_point - obs_path.start_point).dot
              ((agent_path.end_point - obs_path.end_point) -
                (agent_path.start_point - obs_path.start_point)).normalized))) /
          (((agent_path.end_point - obs_path.end_point) -
            (agent_path.start_point - obs_path.start_point)).norm) =
          entryAlpha (agent_path.start_point - obs_path.start_point)
            (agent_path.end_point - obs_path.end_point) r := by
        rw [entryAlpha]
        field_simp
        ring
      rw [hfin]

namespace Vec3

@[simp] theorem smul_zero' (k : ℝ) : k • (0 : Vec3) = 0 := by
  simp [ext_iff]

theorem lt_norm_of_sq {v : Vec3} {r : ℝ} (hr : 0 ≤ r) (h : r ^ 2 < v.normSq) :
    r < v.norm := by
  nlinarith [v.sq_norm, v.norm_nonneg]

end Vec3

/-- Evaluation of the point-to-segment routine on the relative path of the
tangency example (origin against the segment (2,1,0) → (−2,1,0)): the
minimizer is the interior foot (0,1,0) at distance exactly 1. -/
theorem segTangentEx :
    closestPointsBetweenPointAndLineSegment 0 ⟨⟨2, 1, 0⟩, ⟨-2, 1, 0⟩⟩ =
      ⟨0, ⟨0, 1, 0⟩, 1⟩ := by
  have h01 : ¬ ((⟨2, 1, 0⟩ : Vec3) = ⟨-2, 1, 0⟩) := by
    norm_num [Vec3.ext_iff]
  have hsub : (⟨-2, 1, 0⟩ : Vec3) - ⟨2, 1, 0⟩ = ⟨-4, 0, 0⟩ := by
    norm_num [Vec3.ext_iff]
  have hn4 : (⟨-4, 0, 0⟩ : Vec3).norm = 4 :=
    (Vec3.norm_eq_iff (by norm_num : (0:ℝ) ≤ 4)).mpr (by norm_num [Vec3.normSq])
  have hnormed : ((⟨-2, 1, 0⟩ : Vec3) - ⟨2, 1, 0⟩).normalized = ⟨-1, 0, 0⟩ := by
    rw [hsub, Vec3.normalized, if_pos (by rw [hn4]; norm_num), hn4]
    norm_num [Vec3.ext_iff]
  have hdot : (⟨2, 1, 0⟩ : Vec3).dot ⟨-1, 0, 0⟩ = -2 := by
    norm_num [Vec3.dot]
  have hfoot : (⟨2, 1, 0⟩ : Vec3) -
      ((⟨2, 1, 0⟩ : Vec3).dot ⟨-1, 0, 0⟩) • ⟨-1, 0, 0⟩ = ⟨0, 1, 0⟩ := by
    rw [hdot]
    norm_num [Vec3.ext_iff]
  have hnorm01 : (⟨0, 1, 0⟩ : Vec3).norm = 1 :=
    (Vec3.norm_eq_iff (by norm_num : (0:ℝ) ≤ 1)).mpr (by norm_num [Vec3.normSq])
  have hnormsA : ¬ ((⟨2, 1, 0⟩ : Vec3).norm > (⟨-2, 1, 0⟩ : Vec3).norm) := by
    have heq : (⟨2, 1, 0⟩ : Vec3).norm = (⟨-2, 1, 0⟩ : Vec3).norm := by
      rw [Vec3.norm, Vec3.norm]
      norm_num [Vec3.normSq]
    rw [heq]
    exact lt_irrefl _
  have hcond3 : ((⟨0, 1, 0⟩ : Vec3) - ⟨2, 1, 0⟩).dot
        ((⟨0, 1, 0⟩ : Vec3) - ⟨-2, 1, 0⟩) < 0 ∧
      (⟨2, 1, 0⟩ : Vec3).norm > (⟨0, 1, 0⟩ : Vec3).norm := by
    constructor
    · norm_num [Vec3.dot]
    · rw [hnorm01]
      exact Vec3.lt_norm_of_sq (by norm_num) (by norm_num [Vec3.normSq])
  simp only [closestPointsBetweenPointAndLineSegment, Vec3.sub_zero',
    Vec3.add_zero']
  rw [if_neg h01, if_neg hnormsA, if_neg hnormsA, hnormed, hfoot,
    if_pos hcond3, if_pos hcond3, hnorm01]

/-- Evaluation of `closestPointsBetweenLinePaths` on the tangency example:
a stationary obstacle at the origin against an agent moving from (2,1,0)
to (−2,1,0); the minimum relative distance is exactly 1, attained at
α = 1/2. -/
theorem linePathsTangentEx :
    closestPointsBetweenLinePaths ⟨0, 0⟩ ⟨⟨2, 1, 0⟩, ⟨-2, 1, 0⟩⟩ =
      ⟨0, ⟨0, 1, 0⟩, 1⟩ := by
  have hsub : (⟨2, 1, 0⟩ : Vec3) - ⟨-2, 1, 0⟩ = ⟨4, 0, 0⟩ := by
    norm_num [Vec3.ext_iff]
  have hn4 : (⟨4, 0, 0⟩ : Vec3).norm = 4 :=
    (Vec3.norm_eq_iff (by norm_num : (0:ℝ) ≤ 4)).mpr (by norm_num [Vec3.normSq])
  have hsub2 : (⟨0, 1, 0⟩ : Vec3) - ⟨2, 1, 0⟩ = ⟨-2, 0, 0⟩ := by
    norm_num [Vec3.ext_iff]
  have hn2 : (⟨-2, 0, 0⟩ : Vec3).norm = 2 :=
    (Vec3.norm_eq_iff (by norm_num : (0:ℝ) ≤ 2)).mpr (by norm_num [Vec3.normSq])
  simp only [closestPointsBetweenLinePaths, Line.lsub, Line.length,
    Vec3.distance, Vec3.sub_zero', segTangentEx]
  rw [hsub, hn4, if_pos (by norm_num : (4:ℝ) > 0), hsub2, hn2]
  have hc1 : (0 : Vec3) + (2 / 4 : ℝ) • (0 : Vec3) = 0 := by
    norm_num [Vec3.ext_iff]
  have hc2 : (⟨2, 1, 0⟩ : Vec3) + (2 / 4 : ℝ) • ((⟨-2, 1, 0⟩ : Vec3) - ⟨2, 1, 0⟩) =
      ⟨0, 1, 0⟩ := by
    norm_num [Vec3.ext_iff]
  rw [hc1, hc2]

/-- C1 counterexample: at exact tangency the claim's "min ≥ r ⟹ +∞" fails.
For a stationary obstacle at the origin and an agent path (2,1,0) → (−2,1,0)
with r = 1, T = 1, the minimum relative distance is exactly 1 = r, yet
`computeCollisionTime` takes the `dist ≤ r` branch and returns the tangency
time 1/2, not the `SP_INFINITY` sentinel. -/
theorem computeCollisionTime_tangent_counterexample :
    (1 : ℝ) ≤ (closestPointsBetweenLinePaths ⟨0, 0⟩
        ⟨⟨2, 1, 0⟩, ⟨-2, 1, 0⟩⟩).dist ∧
    computeCollisionTime ⟨0, 0⟩ ⟨⟨2, 1, 0⟩, ⟨-2, 1, 0⟩⟩ 1 1 = 1 / 2 ∧
    (1 / 2 : ℝ) ≠ SP_INFINITY := by
  refine ⟨?_, ?_, ?_⟩
  · rw [linePathsTangentEx]
  · simp only [computeCollisionTime, linePathsTangentEx, Vec3.sub_zero']
    rw [if_pos (le_refl (1 : ℝ))]
    have hno : ¬ ((⟨2, 1, 0⟩ : Vec3).norm ≤ 1) :=
      not_le.mpr (Vec3.lt_norm_of_sq (by norm_num) (by norm_num [Vec3.normSq]))
    rw [if_neg hno,
      if_neg (by norm_num [Vec3.ext_iff] : ¬((⟨0, 1, 0⟩ : Vec3) = ⟨-2, 1, 0⟩))]
    have hb : (⟨-2, 1, 0⟩ : Vec3).norm * (⟨-2, 1, 0⟩ : Vec3).norm = 5 := by
      rw [Vec3.norm_mul_self]
      norm_num [Vec3.normSq]
    have hba : ((⟨-2, 1, 0⟩ : Vec3) - ⟨2, 1, 0⟩).norm = 4 := by
      rw [show (⟨-2, 1, 0⟩ : Vec3) - ⟨2, 1, 0⟩ = ⟨-4, 0, 0⟩ from by
        norm_num [Vec3.ext_iff]]
      exact (Vec3.norm_eq_iff (by norm_num : (0:ℝ) ≤ 4)).mpr
        (by norm_num [Vec3.normSq])
    rw [hb, hba]
    rw [show (1:ℝ) * 1 - 1 * 1 = 0 from by norm_num, Real.sqrt_zero,
      show (5:ℝ) - 1 * 1 = 2 ^ 2 from by norm_num,
      Real.sqrt_sq (by norm_num : (0:ℝ) ≤ 2)]
    norm_num
  · norm_num [SP_INFINITY]

/-- Witness for C1 at a concrete input: same geometry with r = 2, T = 1.
The minimum relative distance 1 is below r = 2, the start distance √5
exceeds r, and the returned value is the smaller root times the horizon. -/
theorem computeCollisionTime_spec_witness :
    ∃ α : ℝ, 0 < α ∧
      (((⟨⟨2, 1, 0⟩, ⟨-2, 1, 0⟩⟩ : Line).start_point -
          (⟨0, 0⟩ : Line).start_point) +
          α • (((⟨⟨2, 1, 0⟩, ⟨-2, 1, 0⟩⟩ : Line).end_point -
            (⟨0, 0⟩ : Line).end_point) -
            ((⟨⟨2, 1, 0⟩, ⟨-2, 1, 0⟩⟩ : Line).start_point -
              (⟨0, 0⟩ : Line).start_point))).norm = 2 ∧
      (∀ β : ℝ,
        (((⟨⟨2, 1, 0⟩, ⟨-2, 1, 0⟩⟩ : Line).start_point -
            (⟨0, 0⟩ : Line).start_point) +
            β • (((⟨⟨2, 1, 0⟩, ⟨-2, 1, 0⟩⟩ : Line).end_point -
              (⟨0, 0⟩ : Line).end_point) -
              ((⟨⟨2, 1, 0⟩, ⟨-2, 1, 0⟩⟩ : Line).start_point -
                (⟨0, 0⟩ : Line).start_point))).norm = 2 →
        α ≤ β) ∧
      computeCollisionTime ⟨0, 0⟩ ⟨⟨2, 1, 0⟩, ⟨-2, 1, 0⟩⟩ 2 1 = α * 1 := by
  refine (computeCollisionTime_spec ⟨0, 0⟩ ⟨⟨2, 1, 0⟩, ⟨-2, 1, 0⟩⟩ 2 1
    (by norm_num)).2.2 ?_ ?_
  · rw [linePathsTangentEx]
    norm_num
  · show (2 : ℝ) < ((⟨2, 1, 0⟩ : Vec3) - 0).norm
    rw [Vec3.sub_zero']
    exact Vec3.lt_norm_of_sq (by norm_num) (by norm_num [Vec3.normSq])

/-! ## C5: argument-swap behaviour of `closestPointsBetweenLineSegments` -/

namespace Vec3

theorem cross_anticomm (a b : Vec3) : b.cross a = -(a.cross b) := by
  simp only [cross, ext_iff, neg_x, neg_y, neg_z]
  refine ⟨by ring, by ring, by ring⟩

theorem normSq_cross (a b : Vec3) :
    (a.cross b).normSq = a.normSq * b.normSq - (a.dot b) ^ 2 := by
  simp only [cross, normSq, dot]
  ring

theorem normalized_neg (v : Vec3) : (-v).normalized = -(v.normalized) := by
  rw [normalized, normalized, norm_neg']
  by_cases h : 0 < v.norm
  · rw [if_pos h, if_pos h]
    simp only [ext_iff, smul_x, smul_y, smul_z, neg_x, neg_y, neg_z]
    refine ⟨by ring, by ring, by ring⟩
  · rw [if_neg h, if_neg h]

theorem dot_cross_self_left (a b : Vec3) : a.dot (a.cross b) = 0 := by
  simp only [cross, dot]; ring

/-- `‖u × w‖ ≤ ‖u − w‖` and `‖u × w‖ ≤ ‖u + w‖` for unit vectors. -/
theorem cross_norm_le_of_unit {u w : Vec3} (hu : u.normSq = 1)
    (hw : w.normSq = 1) :
    (u.cross w).norm ≤ (u - w).norm ∧ (u.cross w).norm ≤ (u + w).norm := by
  have hu' := hu
  have hw' := hw
  simp only [normSq] at hu' hw'
  have h1 : (u - w).normSq = 2 - 2 * u.dot w := by
    simp only [normSq, dot, sub_x, sub_y, sub_z]
    linear_combination hu' + hw'
  have h2 : (u + w).normSq = 2 + 2 * u.dot w := by
    simp only [normSq, dot, add_x, add_y, add_z]
    linear_combination hu' + hw'
  have h3 : (u.cross w).normSq = 1 - (u.dot w) ^ 2 := by
    rw [normSq_cross, hu, hw]; ring
  constructor
  · rw [norm_le_norm_iff, h3, h1]; nlinarith [sq_nonneg (u.dot w - 1)]
  · rw [norm_le_norm_iff, h3, h2]; nlinarith [sq_nonneg (u.dot w + 1)]

end Vec3

theorem det3_cyclic (c1 c2 c3 : Vec3) :
    det3 c1 c2 c3 = c3.dot (c1.cross c2) := by
  simp only [det3, Vec3.dot, Vec3.cross]
  ring

/-- Cramer's rule solves the system: the `solve3` combination reproduces
the right-hand side when the determinant is non-zero. -/
theorem solve3_correct (c1 c2 c3 b : Vec3) (hdet : det3 c1 c2 c3 ≠ 0) :
    (solve3 c1 c2 c3 b).1 • c1 + (solve3 c1 c2 c3 b).2.1 • c2 +
      (solve3 c1 c2 c3 b).2.2 • c3 = b := by
  simp only [solve3, Vec3.ext_iff, Vec3.add_x, Vec3.add_y, Vec3.add_z,
    Vec3.smul_x, Vec3.smul_y, Vec3.smul_z]
  refine ⟨?_, ?_, ?_⟩ <;>
    · rw [div_mul_eq_mul_div, div_mul_eq_mul_div, div_mul_eq_mul_div,
        div_add_div_same, div_add_div_same, div_eq_iff hdet]
      simp only [det3]
      ring

/-- Uniqueness of the solution: any linear combination equal to `b` has the
Cramer coefficients. -/
theorem solve3_unique (c1 c2 c3 b : Vec3) (x1 x2 x3 : ℝ)
    (hdet : det3 c1 c2 c3 ≠ 0)
    (hcomb : x1 • c1 + x2 • c2 + x3 • c3 = b) :
    solve3 c1 c2 c3 b = (x1, x2, x3) := by
  have hbx : b.x = x1 * c1.x + x2 * c2.x + x3 * c3.x := by
    rw [← hcomb]; simp
  have hby : b.y = x1 * c1.y + x2 * c2.y + x3 * c3.y := by
    rw [← hcomb]; simp
  have hbz : b.z = x1 * c1.z + x2 * c2.z + x3 * c3.z := by
    rw [← hcomb]; simp
  have h1 : det3 b c2 c3 = x1 * det3 c1 c2 c3 := by
    simp only [det3, hbx, hby, hbz]; ring
  have h2 : det3 c1 b c3 = x2 * det3 c1 c2 c3 := by
    simp only [det3, hbx, hby, hbz]; ring
  have h3 : det3 c1 c2 b = x3 * det3 c1 c2 c3 := by
    simp only [det3, hbx, hby, hbz]; ring
  simp only [solve3, h1, h2, h3]
  rw [Prod.ext_iff]
  refine ⟨?_, ?_⟩
  · rw [mul_div_assoc, div_self hdet, mul_one]
  · rw [Prod.ext_iff]
    constructor
    · show x2 * det3 c1 c2 c3 / det3 c1 c2 c3 = x2
      rw [mul_div_assoc, div_self hdet, mul_one]
    · show x3 * det3 c1 c2 c3 / det3 c1 c2 c3 = x3
      rw [mul_div_assoc, div_self hdet, mul_one]

namespace Vec3

theorem cross_neg_right (a b : Vec3) : a.cross (-b) = -(a.cross b) := by
  simp only [cross, ext_iff, neg_x, neg_y, neg_z]
  refine ⟨by ring, by ring, by ring⟩

theorem dot_neg_right (a b : Vec3) : a.dot (-b) = -(a.dot b) := by
  simp only [dot, neg_x, neg_y, neg_z]; ring

theorem sub_neg' (a b : Vec3) : a - -b = a + b := by
  simp only [ext_iff, sub_x, sub_y, sub_z, add_x, add_y, add_z,
    neg_x, neg_y, neg_z]
  refine ⟨by ring, by ring, by ring⟩

theorem add_comm' (a b : Vec3) : a + b = b + a := by
  simp only [ext_iff, add_x, add_y, add_z]
  refine ⟨by ring, by ring, by ring⟩

end Vec3


/-- Swap symmetry of `closestPointsBetweenLines` on non-degenerate inputs
whose directions are not parallel within the epsilon guard of the cross
product: swapping the two lines swaps the witness pair and keeps the
distance. -/
theorem closestPointsBetweenLines_swap (line1 line2 : Line)
    (hd1 : line1.start_point ≠ line1.end_point)
    (hd2 : line2.start_point ≠ line2.end_point)
    (hnp : ¬ ((line1.end_point - line1.start_point).normalized.cross
        (line2.end_point - line2.start_point).normalized).norm <
      SP_EPSILON_FLOAT) :
    closestPointsBetweenLines line2 line1 =
      swapCP (closestPointsBetweenLines line1 line2) := by
  have hv1 : line1.end_point - line1.start_point ≠ 0 :=
    fun hc => hd1 (Vec3.sub_eq_zero_iff'.mp hc).symm
  have hv2 : line2.end_point - line2.start_point ≠ 0 :=
    fun hc => hd2 (Vec3.sub_eq_zero_iff'.mp hc).symm
  have hm1sq : (line1.end_point - line1.start_point).normalized.normSq = 1 :=
    Vec3.normSq_normalized hv1
  have hm2sq : (line2.end_point - line2.start_point).normalized.normSq = 1 :=
    Vec3.normSq_normalized hv2
  have hcle := Vec3.cross_norm_le_of_unit hm1sq hm2sq
  have heps : SP_EPSILON_FLOAT ≤
      ((line1.end_point - line1.start_point).normalized.cross
        (line2.end_point - line2.start_point).normalized).norm :=
    not_lt.mp hnp
  have hpar1 : ¬ ((line1.end_point - line1.start_point).normalized.distance
        (line2.end_point - line2.start_point).normalized < SP_EPSILON_FLOAT ∨
      (line1.end_point - line1.start_point).normalized.distance
        (-(line2.end_point - line2.start_point).normalized) <
        SP_EPSILON_FLOAT) := by
    rintro (hx | hx)
    · rw [Vec3.distance] at hx
      linarith [hcle.1]
    · rw [Vec3.distance, Vec3.sub_neg'] at hx
      linarith [hcle.2]
  have hpar2 : ¬ ((line2.end_point - line2.start_point).normalized.distance
        (line1.end_point - line1.start_point).normalized < SP_EPSILON_FLOAT ∨
      (line2.end_point - line2.start_point).normalized.distance
        (-(line1.end_point - line1.start_point).normalized) <
        SP_EPSILON_FLOAT) := by
    rintro (hx | hx)
    · rw [Vec3.distance, Vec3.norm_sub_comm] at hx
      exact hpar1 (Or.inl (by rw [Vec3.distance]; exact hx))
    · rw [Vec3.distance, Vec3.sub_neg', Vec3.add_comm'] at hx
      exact hpar1 (Or.inr (by rw [Vec3.distance, Vec3.sub_neg']; exact hx))
  have hwne : (line2.end_point - line2.start_point).normalized.cross
      (line1.end_point - line1.start_point).normalized ≠ 0 := by
    intro hc
    have h0 : (line1.end_point - line1.start_point).normalized.cross
        (line2.end_point - line2.start_point).normalized = 0 := by
      have ha := Vec3.cross_anticomm
        (line2.end_point - line2.start_point).normalized
        (line1.end_point - line1.start_point).normalized
      rw [hc] at ha
      rw [ha]
      simp [Vec3.ext_iff]
    rw [h0] at heps
    simp only [Vec3.norm_zero'] at heps
    linarith [SP_EPSILON_FLOAT_pos]
  have hwnorm : 0 < ((line2.end_point - line2.start_point).normalized.cross
      (line1.end_point - line1.start_point).normalized).norm :=
    Vec3.norm_pos_iff.mpr hwne
  have hwnormne : ((line2.end_point - line2.start_point).normalized.cross
      (line1.end_point - line1.start_point).normalized).norm ≠ 0 :=
    ne_of_gt hwnorm
  have hD1 : det3 (line1.end_point - line1.start_point).normalized
      (-(line2.end_point - line2.start_point).normalized)
      (((line2.end_point - line2.start_point).normalized.cross
        (line1.end_point - line1.start_point).normalized).normalized)
      = ((line2.end_point - line2.start_point).normalized.cross
        (line1.end_point - line1.start_point).normalized).norm := by
    rw [det3_cyclic, Vec3.cross_neg_right, ← Vec3.cross_anticomm,
      Vec3.normalized_of_ne_zero hwne, Vec3.dot_smul_left,
      Vec3.dot_self_eq_normSq, ← Vec3.sq_norm]
    field_simp
    ring
  have hD2 : det3 (line2.end_point - line2.start_point).normalized
      (-(line1.end_point - line1.start_point).normalized)
      (-(((line2.end_point - line2.start_point).normalized.cross
        (line1.end_point - line1.start_point).normalized).normalized))
      = ((line2.end_point - line2.start_point).normalized.cross
        (line1.end_point - line1.start_point).normalized).norm := by
    rw [det3_cyclic, Vec3.cross_neg_right, Vec3.dot_neg_left,
      Vec3.dot_neg_right, neg_neg, Vec3.normalized_of_ne_zero hwne,
      Vec3.dot_smul_left, Vec3.dot_self_eq_normSq, ← Vec3.sq_norm]
    field_simp
    ring
  have hD1ne : det3 (line1.end_point - line1.start_point).normalized
      (-(line2.end_point - line2.start_point).normalized)
      (((line2.end_point - line2.start_point).normalized.cross
        (line1.end_point - line1.start_point).normalized).normalized) ≠ 0 := by
    rw [hD1]; exact hwnormne
  have hD2ne : det3 (line2.end_point - line2.start_point).normalized
      (-(line1.end_point - line1.start_point).normalized)
      (-(((line2.end_point - line2.start_point).normalized.cross
        (line1.end_point - line1.start_point).normalized).normalized)) ≠ 0 := by
    rw [hD2]; exact hwnormne
  have hcomb1 := solve3_correct
    (line1.end_point - line1.start_point).normalized
    (-(line2.end_point - line2.start_point).normalized)
    (((line2.end_point - line2.start_point).normalized.cross
      (line1.end_point - line1.start_point).normalized).normalized)
    (line2.start_point - line1.start_point) hD1ne
  have hcomb2 : (solve3 (line1.end_point - line1.start_point).normalized
        (-(line2.end_point - line2.start_point).normalized)
        (((line2.end_point - line2.start_point).normalized.cross
          (line1.end_point - line1.start_point).normalized).normalized)
        (line2.start_point - line1.start_point)).2.1 •
          (line2.end_point - line2.start_point).normalized +
      (solve3 (line1.end_point - line1.start_point).normalized
        (-(line2.end_point - line2.start_point).normalized)
        (((line2.end_point - line2.start_point).normalized.cross
          (line1.end_point - line1.start_point).normalized).normalized)
        (line2.start_point - line1.start_point)).1 •
          (-(line1.end_point - line1.start_point).normalized) +
      (solve3 (line1.end_point - line1.start_point).normalized
        (-(line2.end_point - line2.start_point).normalized)
        (((line2.end_point - line2.start_point).normalized.cross
          (line1.end_point - line1.start_point).normalized).normalized)
        (line2.start_point - line1.start_point)).2.2 •
          (-(((line2.end_point - line2.start_point).normalized.cross
            (line1.end_point - line1.start_point).normalized).normalized)) =
      line1.start_point - line2.start_point := by
    simp only [Vec3.ext_iff, Vec3.add_x, Vec3.add_y, Vec3.add_z, Vec3.smul_x,
      Vec3.smul_y, Vec3.smul_z, Vec3.neg_x, Vec3.neg_y, Vec3.neg_z,
      Vec3.sub_x, Vec3.sub_y, Vec3.sub_z] at hcomb1 ⊢
    obtain ⟨h1x, h1y, h1z⟩ := hcomb1
    refine ⟨by linarith, by linarith, by linarith⟩
  have huniq := solve3_unique
    (line2.end_point - line2.start_point).normalized
    (-(line1.end_point - line1.start_point).normalized)
    (-(((line2.end_point - line2.start_point).normalized.cross
      (line1.end_point - line1.start_point).normalized).normalized))
    (line1.start_point - line2.start_point)
    (solve3 (line1.end_point - line1.start_point).normalized
      (-(line2.end_point - line2.start_point).normalized)
      (((line2.end_point - line2.start_point).normalized.cross
        (line1.end_point - line1.start_point).normalized).normalized)
      (line2.start_point - line1.start_point)).2.1
    (solve3 (line1.end_point - line1.start_point).normalized
      (-(line2.end_point - line2.start_point).normalized)
      (((line2.end_point - line2.start_point).normalized.cross
        (line1.end_point - line1.start_point).normalized).normalized)
      (line2.start_point - line1.start_point)).1
    (solve3 (line1.end_point - line1.start_point).normalized
      (-(line2.end_point - line2.start_point).normalized)
      (((line2.end_point - line2.start_point).normalized.cross
        (line1.end_point - line1.start_point).normalized).normalized)
      (line2.start_point - line1.start_point)).2.2
    hD2ne hcomb2
  have hn3' : ((line1.end_point - line1.start_point).normalized.cross
      (line2.end_point - line2.start_point).normalized).normalized =
      -(((line2.end_point - line2.start_point).normalized.cross
        (line1.end_point - line1.start_point).normalized).normalized) := by
    rw [Vec3.cross_anticomm, Vec3.normalized_neg]
  have hg1 : ¬ (line2.start_point = line2.end_point ∨
      line1.start_point = line1.end_point) := by
    rintro (h | h)
    exacts [hd2 h, hd1 h]
  have hg2 : ¬ (line1.start_point = line1.end_point ∨
      line2.start_point = line2.end_point) := by
    rintro (h | h)
    exacts [hd1 h, hd2 h]
  simp only [closestPointsBetweenLines, swapCP]
  rw [if_neg hg1, if_neg hg2, if_neg hpar2, if_neg hpar1, hn3', huniq]

namespace Vec3

theorem distance_comm (a b : Vec3) : a.distance b = b.distance a := by
  rw [distance, distance, norm_sub_comm]

end Vec3

/-- C5 (amended): for non-degenerate segments whose directions are not
parallel within the epsilon guard, and whose infinite-line closest points
already lie within both segments (both recomputed parameters in [0,1], so
no endpoint clamping fires), `closestPointsBetweenLineSegments` with the
arguments swapped returns the swapped pair of witness points and the same
distance. -/
theorem closestPointsBetweenLineSegments_swap (line1 line2 : Line)
    (h1 : ¬ line1.start_point.distance line1.end_point < SP_EPSILON_FLOAT)
    (h2 : ¬ line2.start_point.distance line2.end_point < SP_EPSILON_FLOAT)
    (hnp : ¬ ((line1.end_point - line1.start_point).normalized.cross
        (line2.end_point - line2.start_point).normalized).norm <
      SP_EPSILON_FLOAT)
    (ha1 : 0 ≤ ((closestPointsBetweenLines line1 line2).closest_point1 -
        line1.start_point).dot
          (line1.end_point - line1.start_point).normalized /
        (line1.end_point - line1.start_point).norm)
    (ha1' : ((closestPointsBetweenLines line1 line2).closest_point1 -
        line1.start_point).dot
          (line1.end_point - line1.start_point).normalized /
        (line1.end_point - line1.start_point).norm ≤ 1)
    (ha2 : 0 ≤ ((closestPointsBetweenLines line1 line2).closest_point2 -
        line2.start_point).dot
          (line2.end_point - line2.start_point).normalized /
        (line2.end_point - line2.start_point).norm)
    (ha2' : ((closestPointsBetweenLines line1 line2).closest_point2 -
        line2.start_point).dot
          (line2.end_point - line2.start_point).normalized /
        (line2.end_point - line2.start_point).norm ≤ 1) :
    closestPointsBetweenLineSegments line2 line1 =
      swapCP (closestPointsBetweenLineSegments line1 line2) := by
  have hd1 : line1.start_point ≠ line1.end_point := by
    intro he
    apply h1
    rw [he, Vec3.distance]
    simp only [Vec3.sub_self', Vec3.norm_zero']
    exact SP_EPSILON_FLOAT_pos
  have hd2 : line2.start_point ≠ line2.end_point := by
    intro he
    apply h2
    rw [he, Vec3.distance]
    simp only [Vec3.sub_self', Vec3.norm_zero']
    exact SP_EPSILON_FLOAT_pos
  have hv1 : line1.end_point - line1.start_point ≠ 0 :=
    fun hc => hd1 (Vec3.sub_eq_zero_iff'.mp hc).symm
  have hv2 : line2.end_point - line2.start_point ≠ 0 :=
    fun hc => hd2 (Vec3.sub_eq_zero_iff'.mp hc).symm
  have hnp2 : ¬ ((line2.end_point - line2.start_point).normalized.cross
      (line1.end_point - line1.start_point).normalized).norm <
      SP_EPSILON_FLOAT := by
    rw [Vec3.cross_anticomm, Vec3.norm_neg']
    exact hnp
  have hlines := closestPointsBetweenLines_swap line1 line2 hd1 hd2 hnp
  have hno1 : ¬ (((closestPointsBetweenLines line1 line2).closest_point1 -
      line1.start_point).dot
        (line1.end_point - line1.start_point).normalized /
      (line1.end_point - line1.start_point).norm < 0 ∨
      ((closestPointsBetweenLines line1 line2).closest_point1 -
      line1.start_point).dot
        (line1.end_point - line1.start_point).normalized /
      (line1.end_point - line1.start_point).norm > 1) := by
    rintro (h | h)
    · exact absurd h (not_lt.mpr ha1)
    · exact absurd h (not_lt.mpr ha1')
  have hno2 : ¬ (((closestPointsBetweenLines line1 line2).closest_point2 -
      line2.start_point).dot
        (line2.end_point - line2.start_point).normalized /
      (line2.end_point - line2.start_point).norm < 0 ∨
      ((closestPointsBetweenLines line1 line2).closest_point2 -
      line2.start_point).dot
        (line2.end_point - line2.start_point).normalized /
      (line2.end_point - line2.start_point).norm > 1) := by
    rintro (h | h)
    · exact absurd h (not_lt.mpr ha2)
    · exact absurd h (not_lt.mpr ha2')
  simp only [closestPointsBetweenLineSegments]
  rw [if_neg h2, if_neg h1, if_neg h1, if_neg h2,
    ← Vec3.normalized_of_ne_zero hv1, ← Vec3.normalized_of_ne_zero hv2,
    if_neg hnp2, if_neg hnp, hlines]
  simp only [swapCP]
  simp only [if_neg (not_lt.mpr ha2), if_neg (not_lt.mpr ha2'),
    if_neg (not_lt.mpr ha1), if_neg (not_lt.mpr ha1'),
    if_neg hno2, if_neg hno1]
  rw [Vec3.distance_comm]

/-- C5 counterexample: for the exactly anti-parallel overlapping segments
(0,0,0)→(10,0,0) and (8,1,0)→(2,1,0) the parallel branch selects its
witness pair from the branch structure, not symmetrically: one argument
order reports the pair ((2,0,0),(2,1,0)) and the other ((8,1,0),(8,0,0)),
so the swapped call is not the swap of the original call even though both
distances agree. -/
theorem closestPointsBetweenLineSegments_swap_counterexample :
    closestPointsBetweenLineSegments ⟨⟨8, 1, 0⟩, ⟨2, 1, 0⟩⟩
        ⟨⟨0, 0, 0⟩, ⟨10, 0, 0⟩⟩ ≠
      swapCP (closestPointsBetweenLineSegments ⟨⟨0, 0, 0⟩, ⟨10, 0, 0⟩⟩
        ⟨⟨8, 1, 0⟩, ⟨2, 1, 0⟩⟩) := by
  have hd1 : ¬ Vec3.distance ⟨0, 0, 0⟩ ⟨10, 0, 0⟩ < SP_EPSILON_FLOAT := by
    have h : Vec3.distance ⟨0, 0, 0⟩ ⟨10, 0, 0⟩ = 10 :=
      (Vec3.norm_eq_iff (by norm_num : (0:ℝ) ≤ 10)).mpr (by norm_num [Vec3.normSq])
    rw [h]; norm_num [SP_EPSILON_FLOAT]
  have hd2 : ¬ Vec3.distance ⟨8, 1, 0⟩ ⟨2, 1, 0⟩ < SP_EPSILON_FLOAT := by
    have h : Vec3.distance ⟨8, 1, 0⟩ ⟨2, 1, 0⟩ = 6 :=
      (Vec3.norm_eq_iff (by norm_num : (0:ℝ) ≤ 6)).mpr (by norm_num [Vec3.normSq])
    rw [h]; norm_num [SP_EPSILON_FLOAT]
  have hA : closestPointsBetweenLineSegments ⟨⟨0, 0, 0⟩, ⟨10, 0, 0⟩⟩
      ⟨⟨8, 1, 0⟩, ⟨2, 1, 0⟩⟩ = ⟨⟨2, 0, 0⟩, ⟨2, 1, 0⟩, 1⟩ := by
    have hpar : (((1 / ((⟨10, 0, 0⟩ : Vec3) - ⟨0, 0, 0⟩).norm) •
        ((⟨10, 0, 0⟩ : Vec3) - ⟨0, 0, 0⟩)).cross
        ((1 / ((⟨2, 1, 0⟩ : Vec3) - ⟨8, 1, 0⟩).norm) •
        ((⟨2, 1, 0⟩ : Vec3) - ⟨8, 1, 0⟩))).norm < SP_EPSILON_FLOAT := by
      have hc : (((1 / ((⟨10, 0, 0⟩ : Vec3) - ⟨0, 0, 0⟩).norm) •
          ((⟨10, 0, 0⟩ : Vec3) - ⟨0, 0, 0⟩)).cross
          ((1 / ((⟨2, 1, 0⟩ : Vec3) - ⟨8, 1, 0⟩).norm) •
          ((⟨2, 1, 0⟩ : Vec3) - ⟨8, 1, 0⟩))).norm = 0 := by
        simp [Vec3.cross, Vec3.norm, Vec3.normSq]
      rw [hc]; norm_num [SP_EPSILON_FLOAT]
    have hsubA : (⟨10, 0, 0⟩ : Vec3) - ⟨0, 0, 0⟩ = ⟨10, 0, 0⟩ := by
      norm_num [Vec3.ext_iff]
    have hn10 : (⟨10, 0, 0⟩ : Vec3).norm = 10 :=
      (Vec3.norm_eq_iff (by norm_num : (0:ℝ) ≤ 10)).mpr (by norm_num [Vec3.normSq])
    have hn1 : (1 / (10:ℝ)) • (⟨10, 0, 0⟩ : Vec3) = ⟨1, 0, 0⟩ := by
      norm_num [Vec3.ext_iff]
    have hbm : ((⟨2, 1, 0⟩ : Vec3) - ⟨0, 0, 0⟩).dot ⟨1, 0, 0⟩ <
        ((⟨8, 1, 0⟩ : Vec3) - ⟨0, 0, 0⟩).dot ⟨1, 0, 0⟩ := by
      norm_num [Vec3.dot]
    have hc1 : ¬ ((10:ℝ) < ((⟨2, 1, 0⟩ : Vec3) - ⟨0, 0, 0⟩).dot ⟨1, 0, 0⟩) := by
      norm_num [Vec3.dot]
    have hc2 : ¬ (((⟨8, 1, 0⟩ : Vec3) - ⟨0, 0, 0⟩).dot ⟨1, 0, 0⟩ < 0) := by
      norm_num [Vec3.dot]
    have hc3 : ¬ (((⟨2, 1, 0⟩ : Vec3) - ⟨0, 0, 0⟩).dot ⟨1, 0, 0⟩ < 0) := by
      norm_num [Vec3.dot]
    have hdel : (⟨2, 1, 0⟩ : Vec3) - ((⟨8, 1, 0⟩ : Vec3) - ⟨0, 0, 0⟩ -
        (((⟨8, 1, 0⟩ : Vec3) - ⟨0, 0, 0⟩).dot ⟨1, 0, 0⟩) • ⟨1, 0, 0⟩) =
        ⟨2, 0, 0⟩ := by
      norm_num [Vec3.dot, Vec3.ext_iff]
    have hdist : Vec3.distance ⟨2, 0, 0⟩ ⟨2, 1, 0⟩ = 1 :=
      (Vec3.norm_eq_iff (by norm_num : (0:ℝ) ≤ 1)).mpr (by norm_num [Vec3.normSq])
    simp only [closestPointsBetweenLineSegments]
    rw [if_neg hd1, if_neg hd2, if_pos hpar, hsubA, hn10, hn1]
    simp only [closestPointsBetweenParallelLineSegments, if_pos hbm,
      if_neg hc1, if_neg hc2, if_neg hc3]
    rw [hdel, hdist]
  have hB : closestPointsBetweenLineSegments ⟨⟨8, 1, 0⟩, ⟨2, 1, 0⟩⟩
      ⟨⟨0, 0, 0⟩, ⟨10, 0, 0⟩⟩ = ⟨⟨8, 1, 0⟩, ⟨8, 0, 0⟩, 1⟩ := by
    have hpar : (((1 / ((⟨2, 1, 0⟩ : Vec3) - ⟨8, 1, 0⟩).norm) •
        ((⟨2, 1, 0⟩ : Vec3) - ⟨8, 1, 0⟩)).cross
        ((1 / ((⟨10, 0, 0⟩ : Vec3) - ⟨0, 0, 0⟩).norm) •
        ((⟨10, 0, 0⟩ : Vec3) - ⟨0, 0, 0⟩))).norm < SP_EPSILON_FLOAT := by
      have hc : (((1 / ((⟨2, 1, 0⟩ : Vec3) - ⟨8, 1, 0⟩).norm) •
          ((⟨2, 1, 0⟩ : Vec3) - ⟨8, 1, 0⟩)).cross
          ((1 / ((⟨10, 0, 0⟩ : Vec3) - ⟨0, 0, 0⟩).norm) •
          ((⟨10, 0, 0⟩ : Vec3) - ⟨0, 0, 0⟩))).norm = 0 := by
        simp [Vec3.cross, Vec3.norm, Vec3.normSq]
      rw [hc]; norm_num [SP_EPSILON_FLOAT]
    have hsubB : (⟨2, 1, 0⟩ : Vec3) - ⟨8, 1, 0⟩ = ⟨-6, 0, 0⟩ := by
      norm_num [Vec3.ext_iff]
    have hn6 : (⟨-6, 0, 0⟩ : Vec3).norm = 6 :=
      (Vec3.norm_eq_iff (by norm_num : (0:ℝ) ≤ 6)).mpr (by norm_num [Vec3.normSq])
    have hn1 : (1 / (6:ℝ)) • (⟨-6, 0, 0⟩ : Vec3) = ⟨-1, 0, 0⟩ := by
      norm_num [Vec3.ext_iff]
    have hbm : ((⟨10, 0, 0⟩ : Vec3) - ⟨8, 1, 0⟩).dot ⟨-1, 0, 0⟩ <
        ((⟨0, 0, 0⟩ : Vec3) - ⟨8, 1, 0⟩).dot ⟨-1, 0, 0⟩ := by
      norm_num [Vec3.dot]
    have hc1 : ¬ ((6:ℝ) < ((⟨10, 0, 0⟩ : Vec3) - ⟨8, 1, 0⟩).dot ⟨-1, 0, 0⟩) := by
      norm_num [Vec3.dot]
    have hc2 : ¬ (((⟨0, 0, 0⟩ : Vec3) - ⟨8, 1, 0⟩).dot ⟨-1, 0, 0⟩ < 0) := by
      norm_num [Vec3.dot]
    have hc3 : ((⟨10, 0, 0⟩ : Vec3) - ⟨8, 1, 0⟩).dot ⟨-1, 0, 0⟩ < 0 := by
      norm_num [Vec3.dot]
    have hdel : (⟨8, 1, 0⟩ : Vec3) + ((⟨0, 0, 0⟩ : Vec3) - ⟨8, 1, 0⟩ -
        (((⟨0, 0, 0⟩ : Vec3) - ⟨8, 1, 0⟩).dot ⟨-1, 0, 0⟩) • ⟨-1, 0, 0⟩) =
        ⟨8, 0, 0⟩ := by
      norm_num [Vec3.dot, Vec3.ext_iff]
    have hdist : Vec3.distance ⟨8, 1, 0⟩ ⟨8, 0, 0⟩ = 1 :=
      (Vec3.norm_eq_iff (by norm_num : (0:ℝ) ≤ 1)).mpr (by norm_num [Vec3.normSq])
    simp only [closestPointsBetweenLineSegments]
    rw [if_neg hd2, if_neg hd1, if_pos hpar, hsubB, hn6, hn1]
    simp only [closestPointsBetweenParallelLineSegments, if_pos hbm,
      if_neg hc1, if_neg hc2, if_pos hc3]
    rw [hdel, hdist]
  rw [hA, hB]
  simp only [swapCP, ne_eq, ClosestPoints.mk.injEq, Vec3.ext_iff]
  norm_num

/-- Evaluation of `closestPointsBetweenLines` on the skew pair used for the
swap witness: the x-axis segment (0,0,0)→(2,0,0) against the offset
segment (1,−1,1)→(1,1,1); the infinite-line witnesses are (1,0,0) and
(1,0,1) at distance 1. -/
theorem linesSkewEx :
    closestPointsBetweenLines ⟨⟨0, 0, 0⟩, ⟨2, 0, 0⟩⟩ ⟨⟨1, -1, 1⟩, ⟨1, 1, 1⟩⟩ =
      ⟨⟨1, 0, 0⟩, ⟨1, 0, 1⟩, 1⟩ := by
  have hne : ¬ ((⟨0, 0, 0⟩ : Vec3) = ⟨2, 0, 0⟩ ∨
      (⟨1, -1, 1⟩ : Vec3) = ⟨1, 1, 1⟩) := by
    norm_num [Vec3.ext_iff]
  have hsub1 : (⟨2, 0, 0⟩ : Vec3) - ⟨0, 0, 0⟩ = ⟨2, 0, 0⟩ := by
    norm_num [Vec3.ext_iff]
  have hnA : (⟨2, 0, 0⟩ : Vec3).norm = 2 :=
    (Vec3.norm_eq_iff (by norm_num : (0:ℝ) ≤ 2)).mpr (by norm_num [Vec3.normSq])
  have hnormed1 : ((⟨2, 0, 0⟩ : Vec3) - ⟨0, 0, 0⟩).normalized = ⟨1, 0, 0⟩ := by
    rw [hsub1, Vec3.normalized, if_pos (by rw [hnA]; norm_num), hnA]
    norm_num [Vec3.ext_iff]
  have hsub2 : (⟨1, 1, 1⟩ : Vec3) - ⟨1, -1, 1⟩ = ⟨0, 2, 0⟩ := by
    norm_num [Vec3.ext_iff]
  have hnB : (⟨0, 2, 0⟩ : Vec3).norm = 2 :=
    (Vec3.norm_eq_iff (by norm_num : (0:ℝ) ≤ 2)).mpr (by norm_num [Vec3.normSq])
  have hnormed2 : ((⟨1, 1, 1⟩ : Vec3) - ⟨1, -1, 1⟩).normalized = ⟨0, 1, 0⟩ := by
    rw [hsub2, Vec3.normalized, if_pos (by rw [hnB]; norm_num), hnB]
    norm_num [Vec3.ext_iff]
  have hda : ¬ Vec3.distance ⟨1, 0, 0⟩ ⟨0, 1, 0⟩ < SP_EPSILON_FLOAT := by
    have hs : (⟨1, 0, 0⟩ : Vec3) - ⟨0, 1, 0⟩ = ⟨1, -1, 0⟩ := by
      norm_num [Vec3.ext_iff]
    have hlt : SP_EPSILON_FLOAT < Vec3.distance ⟨1, 0, 0⟩ ⟨0, 1, 0⟩ := by
      rw [Vec3.distance, hs]
      exact Vec3.lt_norm_of_sq (by norm_num [SP_EPSILON_FLOAT])
        (by norm_num [SP_EPSILON_FLOAT, Vec3.normSq])
    exact not_lt.mpr (le_of_lt hlt)
  have hdb : ¬ Vec3.distance ⟨1, 0, 0⟩ (-⟨0, 1, 0⟩) < SP_EPSILON_FLOAT := by
    have hs : (⟨1, 0, 0⟩ : Vec3) - (-⟨0, 1, 0⟩) = ⟨1, 1, 0⟩ := by
      norm_num [Vec3.ext_iff]
    have hlt : SP_EPSILON_FLOAT < Vec3.distance ⟨1, 0, 0⟩ (-⟨0, 1, 0⟩) := by
      rw [Vec3.distance, hs]
      exact Vec3.lt_norm_of_sq (by norm_num [SP_EPSILON_FLOAT])
        (by norm_num [SP_EPSILON_FLOAT, Vec3.normSq])
    exact not_lt.mpr (le_of_lt hlt)
  have hcr : (⟨0, 1, 0⟩ : Vec3).cross ⟨1, 0, 0⟩ = ⟨0, 0, -1⟩ := by
    norm_num [Vec3.cross, Vec3.ext_iff]
  have hnC : (⟨0, 0, -1⟩ : Vec3).norm = 1 :=
    (Vec3.norm_eq_iff (by norm_num : (0:ℝ) ≤ 1)).mpr (by norm_num [Vec3.normSq])
  have hn3 : ((⟨0, 1, 0⟩ : Vec3).cross ⟨1, 0, 0⟩).normalized = ⟨0, 0, -1⟩ := by
    rw [hcr, Vec3.normalized, if_pos (by rw [hnC]; norm_num), hnC]
    norm_num [Vec3.ext_iff]
  have hnegn : (-(⟨0, 1, 0⟩ : Vec3)) = ⟨0, -1, 0⟩ := by
    norm_num [Vec3.ext_iff]
  have hdl : (⟨1, -1, 1⟩ : Vec3) - ⟨0, 0, 0⟩ = ⟨1, -1, 1⟩ := by
    norm_num [Vec3.ext_iff]
  have hsol : solve3 ⟨1, 0, 0⟩ ⟨0, -1, 0⟩ ⟨0, 0, -1⟩ ⟨1, -1, 1⟩ =
      ((1:ℝ), (1:ℝ), (-1:ℝ)) := by
    simp only [solve3, det3]
    norm_num [Prod.ext_iff]
  simp only [closestPointsBetweenLines]
  rw [if_neg hne]
  simp only [hnormed1, hnormed2]
  rw [if_neg (not_or.mpr ⟨hda, hdb⟩), hn3, hnegn, hdl, hsol]
  norm_num [ClosestPoints.mk.injEq, Vec3.ext_iff]

/-- Witness for the amended swap property at the concrete skew pair
(0,0,0)→(2,0,0) against (1,−1,1)→(1,1,1), where both recomputed segment
parameters equal 1/2 and no clamping fires. -/
theorem closestPointsBetweenLineSegments_swap_witness :
    closestPointsBetweenLineSegments ⟨⟨1, -1, 1⟩, ⟨1, 1, 1⟩⟩
        ⟨⟨0, 0, 0⟩, ⟨2, 0, 0⟩⟩ =
      swapCP (closestPointsBetweenLineSegments ⟨⟨0, 0, 0⟩, ⟨2, 0, 0⟩⟩
        ⟨⟨1, -1, 1⟩, ⟨1, 1, 1⟩⟩) := by
  have hd1 : ¬ Vec3.distance ⟨0, 0, 0⟩ ⟨2, 0, 0⟩ < SP_EPSILON_FLOAT := by
    have h : Vec3.distance ⟨0, 0, 0⟩ ⟨2, 0, 0⟩ = 2 :=
      (Vec3.norm_eq_iff (by norm_num : (0:ℝ) ≤ 2)).mpr (by norm_num [Vec3.normSq])
    rw [h]; norm_num [SP_EPSILON_FLOAT]
  have hd2 : ¬ Vec3.distance ⟨1, -1, 1⟩ ⟨1, 1, 1⟩ < SP_EPSILON_FLOAT := by
    have h : Vec3.distance ⟨1, -1, 1⟩ ⟨1, 1, 1⟩ = 2 :=
      (Vec3.norm_eq_iff (by norm_num : (0:ℝ) ≤ 2)).mpr (by norm_num [Vec3.normSq])
    rw [h]; norm_num [SP_EPSILON_FLOAT]
  have hsub1 : (⟨2, 0, 0⟩ : Vec3) - ⟨0, 0, 0⟩ = ⟨2, 0, 0⟩ := by
    norm_num [Vec3.ext_iff]
  have hnA : (⟨2, 0, 0⟩ : Vec3).norm = 2 :=
    (Vec3.norm_eq_iff (by norm_num : (0:ℝ) ≤ 2)).mpr (by norm_num [Vec3.normSq])
  have hnormed1 : ((⟨2, 0, 0⟩ : Vec3) - ⟨0, 0, 0⟩).normalized = ⟨1, 0, 0⟩ := by
    rw [hsub1, Vec3.normalized, if_pos (by rw [hnA]; norm_num), hnA]
    norm_num [Vec3.ext_iff]
  have hsub2 : (⟨1, 1, 1⟩ : Vec3) - ⟨1, -1, 1⟩ = ⟨0, 2, 0⟩ := by
    norm_num [Vec3.ext_iff]
  have hnB : (⟨0, 2, 0⟩ : Vec3).norm = 2 :=
    (Vec3.norm_eq_iff (by norm_num : (0:ℝ) ≤ 2)).mpr (by norm_num [Vec3.normSq])
  have hnormed2 : ((⟨1, 1, 1⟩ : Vec3) - ⟨1, -1, 1⟩).normalized = ⟨0, 1, 0⟩ := by
    rw [hsub2, Vec3.normalized, if_pos (by rw [hnB]; norm_num), hnB]
    norm_num [Vec3.ext_iff]
  have hnp : ¬ (((⟨2, 0, 0⟩ : Vec3) - ⟨0, 0, 0⟩).normalized.cross
      (((⟨1, 1, 1⟩ : Vec3) - ⟨1, -1, 1⟩).normalized)).norm <
      SP_EPSILON_FLOAT := by
    have hcr : (⟨1, 0, 0⟩ : Vec3).cross ⟨0, 1, 0⟩ = ⟨0, 0, 1⟩ := by
      norm_num [Vec3.cross, Vec3.ext_iff]
    have hnc : (⟨0, 0, 1⟩ : Vec3).norm = 1 :=
      (Vec3.norm_eq_iff (by norm_num : (0:ℝ) ≤ 1)).mpr (by norm_num [Vec3.normSq])
    rw [hnormed1, hnormed2, hcr, hnc]
    norm_num [SP_EPSILON_FLOAT]
  have ha : ((closestPointsBetweenLines ⟨⟨0, 0, 0⟩, ⟨2, 0, 0⟩⟩
      ⟨⟨1, -1, 1⟩, ⟨1, 1, 1⟩⟩).closest_point1 - ⟨0, 0, 0⟩).dot
        ((⟨2, 0, 0⟩ : Vec3) - ⟨0, 0, 0⟩).normalized /
        ((⟨2, 0, 0⟩ : Vec3) - ⟨0, 0, 0⟩).norm = 1 / 2 := by
    rw [linesSkewEx, hnormed1, hsub1, hnA]
    norm_num [Vec3.dot]
  have hb : ((closestPointsBetweenLines ⟨⟨0, 0, 0⟩, ⟨2, 0, 0⟩⟩
      ⟨⟨1, -1, 1⟩, ⟨1, 1, 1⟩⟩).closest_point2 - ⟨1, -1, 1⟩).dot
        ((⟨1, 1, 1⟩ : Vec3) - ⟨1, -1, 1⟩).normalized /
        ((⟨1, 1, 1⟩ : Vec3) - ⟨1, -1, 1⟩).norm = 1 / 2 := by
    rw [linesSkewEx, hnormed2, hsub2, hnB]
    norm_num [Vec3.dot]
  exact closestPointsBetweenLineSegments_swap ⟨⟨0, 0, 0⟩, ⟨2, 0, 0⟩⟩
    ⟨⟨1, -1, 1⟩, ⟨1, 1, 1⟩⟩ hd1 hd2 hnp
    (by rw [ha]; norm_num) (by rw [ha]; norm_num)
    (by rw [hb]; norm_num) (by rw [hb]; norm_num)
